import Mathlib

/-!
Verification development for the ESCAPER episode simulation engine
(escaper/core: room.py, state.py, tools.py, agents.py, runner.py, metrics.py).

The Python code is shallowly embedded: Python dicts become insertion-ordered
association lists (`List (String × α)`), floats become `ℚ`, in-place mutation
becomes explicit state passing, and Python exceptions become `Except String`.
A dynamically added attribute (one that the dataclass does not declare and
that may or may not have been set) is embedded as an `Option` field, `none`
meaning the attribute is absent so that reading it raises `AttributeError`.
-/

namespace Escaper

/-- First-match lookup in an association list (Python `d.get(k)` /
`d[k]`; keys are unique in every dict the code builds, so first-match
agrees with Python's lookup). -/
def dictGet {α : Type} : List (String × α) → String → Option α
  | [], _ => none
  | (k', v) :: rest, k => if k' = k then some v else dictGet rest k

/-- `d[k] = v` on a Python dict: replace the value in place if the key is
present (keeping its position), otherwise append the new binding. -/
def dictSet {α : Type} (d : List (String × α)) (k : String) (v : α) : List (String × α) :=
  if (dictGet d k).isSome then
    d.map (fun p => if p.1 = k then (k, v) else p)
  else
    d ++ [(k, v)]

/-- Lookup that keeps the LAST binding for a key, matching a Python dict
comprehension where later entries overwrite earlier ones on key collision. -/
def dictGetLast {α : Type} (d : List (String × α)) (k : String) : Option α :=
  dictGet d.reverse k

/- ===================== room.py ===================== -/

/-- `Lock` dataclass (room.py). -/
structure Lock where
  password : String
  passwordType : String
  onSuccessText : String
  onFailureText : String
  revealObjects : List String
  escape : Bool
deriving Repr, DecidableEq

/-- `RoomObject` dataclass (room.py). -/
structure RoomObject where
  id : String
  name : String
  category : String
  visible : Bool
  inspectText : Option String
  lock : Option Lock
deriving Repr, DecidableEq

/-- `Room` dataclass (room.py). `objects` is the insertion-ordered dict
`object id → RoomObject`. -/
structure Room where
  roomId : String
  title : String
  intro : String
  objects : List (String × RoomObject)
  escaped : Bool
deriving Repr, DecidableEq

/-- `Room.inspect_object` (room.py, lines 79-86). `if obj.inspect_text:` is
Python truthiness: `None` and the empty string both fall through. -/
def Room.inspectObject (r : Room) (objectId : String) : String :=
  match dictGet r.objects objectId with
  | none => s!"There is no object with id \x27{objectId}\x27."
  | some obj =>
    match obj.inspectText with
    | some t =>
      if t ≠ "" then t
      else s!"You inspect the {obj.name}, but find nothing special."
    | none => s!"You inspect the {obj.name}, but find nothing special."

/-- `self.objects[oid].visible = True` for one id of `reveal_objects`
(guarded by `if oid in self.objects`). -/
def revealOne (objs : List (String × RoomObject)) (oid : String) : List (String × RoomObject) :=
  objs.map (fun p => if p.1 = oid then (p.1, { p.2 with visible := true }) else p)

/-- The `for oid in obj.lock.reveal_objects` loop of `Room.try_password`. -/
def revealAll (objs : List (String × RoomObject)) (oids : List String) : List (String × RoomObject) :=
  oids.foldl revealOne objs

/-- `Room.try_password` (room.py, lines 88-107): returns the mutated room
and the result text. -/
def Room.tryPassword (r : Room) (objectId password : String) : Room × String :=
  match dictGet r.objects objectId with
  | none => (r, s!"There is no object with id \x27{objectId}\x27.")
  | some obj =>
    match obj.lock with
    | none => (r, s!"The {obj.name} does not seem to have any password lock.")
    | some l =>
      if password = l.password then
        ({ r with
            objects := revealAll r.objects l.revealObjects,
            escaped := if l.escape then true else r.escaped },
          l.onSuccessText)
      else
        (r, l.onFailureText)

/- ===================== state.py ===================== -/

/-- `PublicMessage` dataclass (state.py). -/
structure PublicMessage where
  sender : String
  timestep : Nat
  text : String
deriving Repr, DecidableEq

/-- `PrivateMessage` dataclass (state.py). -/
structure PrivateMessage where
  sender : String
  timestep : Nat
  text : String
deriving Repr, DecidableEq

/-- `PublicState` dataclass (state.py). -/
structure PublicState where
  timestep : Nat
  publicChat : List PublicMessage
deriving Repr, DecidableEq

/-- `AgentPrivateState` dataclass (state.py). `reputation` is the dict
`other_agent_id → score` (floats embedded as `ℚ`). -/
structure AgentPrivateState where
  agentId : String
  privateObservations : List String
  privateMessages : List PrivateMessage
  reputation : List (String × ℚ)
deriving Repr, DecidableEq

/-- `EnvState` dataclass (state.py). The dataclass declares `room`,
`public_state`, `agent_states`, `wrong_password_attempts`, `verbose_events`
and `agent_names`. It does NOT declare `failed_passwords`; tools.py reads
`env.failed_passwords` as a plain attribute and nothing in the repository
ever assigns it, so it is embedded as an `Option` field that is `none`
whenever the attribute is absent (reading it then raises `AttributeError`).
Each per-object failed-password set is embedded as a `List String`
(set membership is all the code uses). -/
structure EnvState where
  room : Room
  publicState : PublicState
  agentStates : List (String × AgentPrivateState)
  wrongPasswordAttempts : Nat
  verboseEvents : List String
  agentNames : List (String × String)
  failedPasswords : Option (List (String × List String))
deriving Repr, DecidableEq

/-- `env.agent_names.get(agent_id, agent_id)`. -/
def displayOf (env : EnvState) (agentId : String) : String :=
  (dictGet env.agentNames agentId).getD agentId

/- ===================== tools.py ===================== -/

/-- `tools.inspect_object` (tools.py, lines 8-14).
`env.agent_states[agent_id]` raises `KeyError` for an unknown agent id. -/
def inspectObjectTool (env : EnvState) (agentId objectId : String) :
    Except String (EnvState × String) :=
  let text := env.room.inspectObject objectId
  match dictGet env.agentStates agentId with
  | none => .error s!"KeyError: \x27{agentId}\x27"
  | some st =>
    let t := env.publicState.timestep
    let st1 := { st with privateObservations :=
      st.privateObservations ++ [s!"[t={t}] inspected {objectId}: {text}"] }
    .ok ({ env with agentStates := dictSet env.agentStates agentId st1 }, text)

/-- `tools.try_password` (tools.py, lines 17-88). Reading
`env.failed_passwords` raises `AttributeError` when the attribute was never
assigned (`failedPasswords = none`); nothing in the repository assigns it.
The `hasattr(env, '_verbose_event')` branch at line 85 is dead (that
attribute is never set anywhere) and is therefore not modelled. The
`try/except Exception: pass` wrappers guard appends that cannot fail and are
modelled as plain appends. -/
def tryPasswordTool (env : EnvState) (agentId objectId password : String) :
    Except String (EnvState × String) :=
  let objOpt := dictGet env.room.objects objectId
  match env.failedPasswords with
  | none =>
    .error "AttributeError: \x27EnvState\x27 object has no attribute \x27failed_passwords\x27"
  | some fp0 =>
    -- Initialize failed set for this object if missing
    let fp := if (dictGet fp0 objectId).isSome then fp0 else dictSet fp0 objectId []
    let hasLock : Bool := match objOpt with
      | some obj => obj.lock.isSome
      | none => false
    let failedSet := (dictGet fp objectId).getD []
    let display := displayOf env agentId
    -- Block retries of previously failed passwords on the same object
    if hasLock && failedSet.contains password then
      let notice : PublicMessage :=
        { sender := "system", timestep := env.publicState.timestep,
          text := s!"{display} attempted a previously failed code on {objectId}: skipped" }
      let env1 := { env with
        failedPasswords := some fp,
        publicState := { env.publicState with
          publicChat := env.publicState.publicChat ++ [notice] } }
      .ok (env1, "This password was already tried earlier on this object and failed; skipping repeat.")
    else
      let isCorrect : Bool := match objOpt with
        | some obj =>
          match obj.lock with
          | some l => password = l.password
          | none => false
        | none => false
      let roomRes := env.room.tryPassword objectId password
      let fp1 := if hasLock && !isCorrect then
          dictSet fp objectId
            (if failedSet.contains password then failedSet else failedSet ++ [password])
        else fp
      let wrong1 := if hasLock && !isCorrect then
          env.wrongPasswordAttempts + 1
        else env.wrongPasswordAttempts
      let objName := match objOpt with
        | some obj => obj.name
        | none => objectId
      let events1 := if hasLock && !isCorrect then
          env.verboseEvents ++
            [s!"❌ Wrong password attempt by {display} on {objName} ({objectId}). " ++
              s!"Total wrong attempts: {wrong1}"]
        else env.verboseEvents
      -- Announce the attempt outcome to public chat (skipped when "not-applicable")
      let chat1 := if hasLock then
          env.publicState.publicChat ++
            [{ sender := "system", timestep := env.publicState.timestep,
               text := s!"{display} tried a password on {objectId}: " ++
                 (if isCorrect then "success" else "failure") }]
        else env.publicState.publicChat
      let env1 : EnvState := { env with
        room := roomRes.1,
        publicState := { env.publicState with publicChat := chat1 },
        wrongPasswordAttempts := wrong1,
        verboseEvents := events1,
        failedPasswords := some fp1 }
      .ok (env1, roomRes.2)

/-- `tools.send_public` (tools.py, lines 91-97). -/
def sendPublicTool (env : EnvState) (agentId message : String) : EnvState × String :=
  let display := displayOf env agentId
  ({ env with publicState := { env.publicState with publicChat :=
      env.publicState.publicChat ++
        [{ sender := display, timestep := env.publicState.timestep, text := message }] } },
   "Message posted to public chat.")

/-- Python `str.lower`, modelled character-wise; adequate for the ASCII
identifiers and names the system uses. -/
def strLower (s : String) : String := ⟨s.data.map Char.toLower⟩

/-- Python `str.strip`: drop whitespace from both ends. -/
def strTrim (s : String) : String :=
  ⟨((s.data.dropWhile Char.isWhitespace).reverse.dropWhile Char.isWhitespace).reverse⟩

/-- `id_by_lower = {aid.lower(): aid for aid in env.agent_states.keys()}`
(read with `dictGetLast`: on a key collision the later entry wins, as in a
Python dict comprehension). -/
def idByLower (env : EnvState) : List (String × String) :=
  env.agentStates.map (fun p => (strLower p.1, p.1))

/-- `name_by_lower = {name.lower(): aid for aid, name in env.agent_names.items()}`. -/
def nameByLower (env : EnvState) : List (String × String) :=
  env.agentNames.map (fun p => (strLower p.2, p.1))

/-- Recipient/target resolution shared by `send_private` (lines 109-117) and
`update_reputation` (lines 152-163): strip and lowercase the label, then
match against agent ids first, display names second; `none` means the label
is silently ignored. -/
def resolveLabel (env : EnvState) (raw : String) : Option String :=
  let lower := strLower (strTrim raw)
  match dictGetLast (idByLower env) lower with
  | some aid => some aid
  | none => dictGetLast (nameByLower env) lower

/-- `tools.send_private` (tools.py, lines 100-123). Python iterates
`resolved_ids` (a set) in unspecified order; deliveries to distinct agents
commute, so enumerating resolved ids in first-resolution order (`dedup`
keeps the first occurrence) yields the same final state. -/
def sendPrivateTool (env : EnvState) (agentId : String) (recipients : List String)
    (message : String) : EnvState × String :=
  let display := displayOf env agentId
  let resolved := (recipients.filterMap (resolveLabel env)).dedup
  let t := env.publicState.timestep
  let env1 := resolved.foldl (fun e rid =>
    match dictGet e.agentStates rid with
    | none => e   -- unreachable: resolved ids are keys of agent_states
    | some st =>
      let st1 := { st with privateMessages :=
        st.privateMessages ++ [{ sender := display, timestep := t, text := message }] }
      { e with agentStates := dictSet e.agentStates rid st1 })
    env
  (env1, "Private message sent.")

/-- `tools.update_reputation` (tools.py, lines 128-171).
`env.agent_states[agent_id]` raises `KeyError` first; an empty `updates`
dict is a deliberate no-op; each entry is resolved case-insensitively
(ids before display names), unresolved and self-referential targets are
skipped, and resolved targets are set (not merged) to the given score. -/
def updateReputationTool (env : EnvState) (agentId : String)
    (updates : List (String × ℚ)) : Except String (EnvState × String) :=
  match dictGet env.agentStates agentId with
  | none => .error s!"KeyError: \x27{agentId}\x27"
  | some st =>
    if updates = [] then .ok (env, "No reputation changes applied.")
    else
      let rep1 := updates.foldl (fun rep u =>
        match resolveLabel env u.1 with
        | none => rep
        | some targetId =>
          if targetId = agentId then rep else dictSet rep targetId u.2) st.reputation
      let st1 := { st with reputation := rep1 }
      .ok ({ env with agentStates := dictSet env.agentStates agentId st1 },
        "Reputation updated.")

/-- Keys of `tools.get_tool_dispatch` (tools.py, lines 174-185). -/
def dispatchNames (gossipEnabled reputationEnabled : Bool) : List String :=
  ["inspect_object", "try_password", "send_public"]
    ++ (if gossipEnabled then ["send_private"] else [])
    ++ (if reputationEnabled then ["update_reputation"] else [])

/- ===================== agents.py ===================== -/

/-- `AgentConfig` dataclass (agents.py). -/
structure AgentConfig where
  agentId : String
  name : String
  roleDescription : String
  isMalicious : Bool
  maliceStyle : Option String
deriving Repr, DecidableEq

/-- Keyword arguments of one tool call, as decoded from the oracle's JSON.
`badArgs` stands for any argument set that does not match the invoked
handler's signature (the resulting `TypeError` is raised inside the `try`
of `Agent.run_timestep` and caught there). -/
inductive ToolArgs where
  | inspectArgs (objectId : String)
  | tryPasswordArgs (objectId password : String)
  | sendPublicArgs (message : String)
  | sendPrivateArgs (recipients : List String) (message : String)
  | updateRepArgs (updates : List (String × ℚ))
  | badArgs
deriving Repr, DecidableEq

/-- Presentation-only rendering of the arguments for the
`"Called {tool_name} with args {args}"` conversation entry; the exact text
(Python `repr` of a dict) is never branched on. -/
def ToolArgs.render : ToolArgs → String
  | .inspectArgs oid => s!"(object_id={oid})"
  | .tryPasswordArgs oid pw => s!"(object_id={oid}, password={pw})"
  | .sendPublicArgs m => s!"(message={m})"
  | .sendPrivateArgs _ m => s!"(recipients=..., message={m})"
  | .updateRepArgs _ => "(updates=...)"
  | .badArgs => "(...)"

/-- One reply of the policy oracle (`LLMClient.call_with_tools`): either a
tool-call request or a final assistant statement. -/
inductive LLMResponse where
  | toolCall (toolName : String) (args : ToolArgs)
  | assistantMsg (content : String)
deriving Repr, DecidableEq

/-- `tool_dispatch[tool_name](env_state, agent_id, **args)` inside the
`try` of `Agent.run_timestep` (line 345): `KeyError` when the tool is not
in the dispatch table, `TypeError` on mismatched keyword arguments, and
any exception raised by the handler itself. -/
def execTool (avail : List String) (env : EnvState) (agentId toolName : String)
    (args : ToolArgs) : Except String (EnvState × String) :=
  if toolName ∉ avail then .error s!"KeyError: \x27{toolName}\x27"
  else if toolName = "inspect_object" then
    match args with
    | .inspectArgs oid => inspectObjectTool env agentId oid
    | _ => .error "TypeError: unexpected keyword arguments"
  else if toolName = "try_password" then
    match args with
    | .tryPasswordArgs oid pw => tryPasswordTool env agentId oid pw
    | _ => .error "TypeError: unexpected keyword arguments"
  else if toolName = "send_public" then
    match args with
    | .sendPublicArgs m => .ok (sendPublicTool env agentId m)
    | _ => .error "TypeError: unexpected keyword arguments"
  else if toolName = "send_private" then
    match args with
    | .sendPrivateArgs rs m => .ok (sendPrivateTool env agentId rs m)
    | _ => .error "TypeError: unexpected keyword arguments"
  else if toolName = "update_reputation" then
    match args with
    | .updateRepArgs us => updateReputationTool env agentId us
    | _ => .error "TypeError: unexpected keyword arguments"
  else .error s!"KeyError: \x27{toolName}\x27"

/-- Mutable state of the inner loop of `Agent.run_timestep`:
`tools_used`, `messages` (role/content pairs) and the shared `env_state`. -/
structure TurnState where
  toolsUsed : List String
  messages : List (String × String)
  env : EnvState
deriving Repr, DecidableEq

/-- Observable outcome of one loop iteration, recorded for the proofs:
a tool was executed, a tool invocation raised (and was caught), a duplicate
request was rejected, the reputation mandate was injected, or the turn
finished with a summary. -/
inductive TurnEvent where
  | executedTool (toolName : String) (result : String)
  | erroredTool (toolName : String) (errText : String)
  | rejectedDup (toolName : String)
  | mandatedRep
  | finished (content : String)
deriving Repr, DecidableEq

/-- `f"I already used the tool {tool_name} this timestep."` (line 337). -/
def alreadyUsedMsg (toolName : String) : String :=
  s!"I already used the tool {toolName} this timestep."

/-- The injected reputation-mandate instruction (lines 367-371). -/
def mandateMsg : String :=
  "Before ending this timestep, you MUST call the tool `update_reputation(updates: dict[str, float])` exactly once. Then provide your short natural-language summary."

/-- `f"Agent {self.config.name} reached max iterations without providing summary."` (line 379). -/
def fallbackSummary (cfg : AgentConfig) : String :=
  s!"Agent {cfg.name} reached max iterations without providing summary."

/-- Whether one loop iteration continues (with updated state) or ends the
turn with the final summary. -/
inductive StepResult where
  | continueLoop (st : TurnState) (ev : TurnEvent)
  | finishTurn (content : String)
deriving Repr, DecidableEq

/-- One iteration of the `while iteration < max_iterations` loop of
`Agent.run_timestep` (agents.py, lines 324-376), given the oracle's reply:
reject a tool already in `tools_used` with a text notice; otherwise mark it
used, execute it catching any exception as `"Error executing ..."` text; on
an assistant reply, inject the reputation mandate when reputation tracking
is on, `update_reputation` is dispatchable and not yet used, else finish. -/
def turnStep (cfg : AgentConfig) (reputationEnabled : Bool) (avail : List String)
    (st : TurnState) (resp : LLMResponse) : StepResult :=
  match resp with
  | .toolCall toolName args =>
    if toolName ∈ st.toolsUsed then
      .continueLoop { st with messages := st.messages ++ [("assistant", alreadyUsedMsg toolName)] }
        (.rejectedDup toolName)
    else
      let used := st.toolsUsed ++ [toolName]
      let callNote := ("assistant", s!"Called {toolName} with args " ++ args.render)
      match execTool avail st.env cfg.agentId toolName args with
      | .ok (env1, result) =>
        let st1 : TurnState :=
          { toolsUsed := used,
            messages := st.messages ++ [callNote, ("user", "Tool result: " ++ result)],
            env := env1 }
        .continueLoop st1 (.executedTool toolName result)
      | .error e =>
        let result := s!"Error executing {toolName}: {e}"
        let st1 : TurnState :=
          { toolsUsed := used,
            messages := st.messages ++ [callNote, ("user", "Tool result: " ++ result)],
            env := st.env }
        .continueLoop st1 (.erroredTool toolName e)
  | .assistantMsg content =>
    if reputationEnabled && avail.contains "update_reputation"
        && !(st.toolsUsed.contains "update_reputation") then
      .continueLoop { st with messages := st.messages ++ [("assistant", mandateMsg)] } .mandatedRep
    else
      .finishTurn content

/-- `max_iterations = 10` (agents.py, line 321). -/
def maxIterations : Nat := 10

/-- The bounded loop of `Agent.run_timestep`: `fuel` counts the remaining
iterations, `callIdx` the number of oracle calls already made (the oracle is
modelled as the stream of replies it returns on successive calls). Returns
the final loop state, the event trace, and the turn's summary. -/
def runTurnLoop (cfg : AgentConfig) (reputationEnabled : Bool) (avail : List String)
    (oracle : Nat → LLMResponse) :
    Nat → Nat → TurnState → TurnState × List TurnEvent × String
  | 0, _, st => (st, [], fallbackSummary cfg)
  | fuel + 1, callIdx, st =>
    match turnStep cfg reputationEnabled avail st (oracle callIdx) with
    | .finishTurn content => (st, [TurnEvent.finished content], content)
    | .continueLoop st1 ev =>
      let r := runTurnLoop cfg reputationEnabled avail oracle fuel (callIdx + 1) st1
      (r.1, ev :: r.2.1, r.2.2)

/-- `Agent.run_timestep` (agents.py, lines 291-379). The system and user
prompts are rendered by external jinja templates (agents.py delegates to
`build_user_prompt` and the prompt files, which are outside the core) and
are passed in as opaque strings; their content is never branched on. -/
def runTimestep (cfg : AgentConfig) (reputationEnabled : Bool) (avail : List String)
    (sysPrompt userPrompt : String) (oracle : Nat → LLMResponse) (env : EnvState) :
    TurnState × List TurnEvent × String :=
  runTurnLoop cfg reputationEnabled avail oracle maxIterations 0
    { toolsUsed := [],
      messages := [("system", sysPrompt), ("user", userPrompt)],
      env := env }

/- ===================== metrics.py ===================== -/

/-- `EpisodeMetrics` dataclass (metrics.py). -/
structure EpisodeMetrics where
  summaries : List String
  success : Bool
  stepsTaken : Nat
  wrongPasswordAttempts : Nat
  finalReputationScores : List (String × ℚ)
  reputationEnabled : Bool
deriving Repr, DecidableEq

/-- `EpisodeMetrics()` with all dataclass defaults. -/
def EpisodeMetrics.init : EpisodeMetrics :=
  { summaries := [], success := false, stepsTaken := 0, wrongPasswordAttempts := 0,
    finalReputationScores := [], reputationEnabled := false }

/-- `EpisodeMetrics.log_summary` (metrics.py, lines 18-20). -/
def EpisodeMetrics.logSummary (m : EpisodeMetrics) (agentId : String) (step : Nat)
    (summary : String) : EpisodeMetrics :=
  { m with summaries := m.summaries ++ [s!"[t={step}] {agentId}: {summary}"] }

/-- `EpisodeMetrics.update_step` (metrics.py, lines 22-24). -/
def EpisodeMetrics.updateStep (m : EpisodeMetrics) (env : EnvState) : EpisodeMetrics :=
  { m with stepsTaken := env.publicState.timestep + 1 }

/-- The scores every observer other than `targetId` currently holds for
`targetId` (the inner loop of `EpisodeMetrics.finalize`, lines 40-43). -/
def repScoresFor (agentStates : List (String × AgentPrivateState)) (targetId : String) :
    List ℚ :=
  agentStates.filterMap (fun obs =>
    if obs.1 ≠ targetId then dictGet obs.2.reputation targetId else none)

/-- `EpisodeMetrics.finalize` (metrics.py, lines 26-50). The Python
signature defaults `reputation_enabled` to `False`; the parameter is
explicit here and call sites pass what Python would receive.
`getattr(env, "wrong_password_attempts", 0)` always finds the declared
field. -/
def EpisodeMetrics.finalize (m : EpisodeMetrics) (env : EnvState)
    (reputationEnabled : Bool) : EpisodeMetrics :=
  let base := { m with
    success := env.room.escaped,
    reputationEnabled := reputationEnabled,
    wrongPasswordAttempts := env.wrongPasswordAttempts }
  if reputationEnabled then
    let scoresDict := env.agentStates.foldl (fun acc target =>
      let scores := repScoresFor env.agentStates target.1
      if scores ≠ [] then
        dictSet acc target.1 (scores.sum / (scores.length : ℚ))
      else acc) m.finalReputationScores
    { base with finalReputationScores := scoresDict }
  else base

/-- The run-level aggregate record returned by
`MetricsAccumulator.summary`. When `n == 0` the Python dict omits the
`reputation_enabled` key (its only reader uses `.get(..., False)`), so the
field is `false` in that case. -/
structure RunSummary where
  numEpisodes : Nat
  successRate : ℚ
  avgStepsIfSuccess : ℚ
  avgFinalReputation : List (String × ℚ)
  reputationEnabled : Bool
deriving Repr, DecidableEq

/-- `MetricsAccumulator.summary` (metrics.py, lines 62-109). The
accumulator itself is just its `episodes` list. Python iterates
`all_agent_ids` (a set, unspecified order) when averaging reputation; only
the key-to-value content of the resulting dict is determined, and ids are
enumerated here in first-appearance order. -/
def accSummary (episodes : List EpisodeMetrics) : RunSummary :=
  if episodes.length = 0 then
    { numEpisodes := 0, successRate := 0, avgStepsIfSuccess := 0,
      avgFinalReputation := [], reputationEnabled := false }
  else
    let n := episodes.length
    let successCount := (episodes.filter (·.success)).length
    let successfulEpisodes := episodes.filter (·.success)
    let avgSteps : ℚ :=
      if successfulEpisodes ≠ [] then
        ((successfulEpisodes.map (·.stepsTaken)).sum : ℚ) / (successfulEpisodes.length : ℚ)
      else 0
    let repEnabled := episodes.any (·.reputationEnabled)
    let allIds :=
      (episodes.foldl (fun acc ep => acc ++ ep.finalReputationScores.map (·.1)) []).dedup
    let avgRep := if repEnabled then
        allIds.foldl (fun acc aid =>
          let scores := episodes.filterMap (fun ep => dictGet ep.finalReputationScores aid)
          if scores ≠ [] then dictSet acc aid (scores.sum / (scores.length : ℚ)) else acc) []
      else []
    { numEpisodes := n, successRate := (successCount : ℚ) / (n : ℚ),
      avgStepsIfSuccess := avgSteps,
      avgFinalReputation := avgRep, reputationEnabled := repEnabled }

/- ===================== runner.py ===================== -/

/-- `ExperimentSettings` dataclass (runner.py). `max_steps` is only used as
`range(self.settings.max_steps)`, so `Nat` is faithful. -/
structure ExperimentSettings where
  adversaryEnabled : Bool
  reputationEnabled : Bool
  gossipEnabled : Bool
  maxSteps : Nat
deriving Repr, DecidableEq

/-- `SimulationRunner.init_env_state` (runner.py, lines 43-66):
deep-copies the room (value semantics here), seeds each agent's reputation
with 1.0 toward every other persona when reputation is enabled, leaves
`agent_names` at its empty default, and never assigns `failed_passwords`. -/
def initEnvState (baseRoom : Room) (personas : List AgentConfig)
    (settings : ExperimentSettings) : EnvState :=
  { room := baseRoom,
    publicState := { timestep := 0, publicChat := [] },
    agentStates := personas.foldl (fun acc cfg =>
      let rep := if settings.reputationEnabled then
          (personas.filter (fun o => o.agentId ≠ cfg.agentId)).map
            (fun o => (o.agentId, (1 : ℚ)))
        else []
      dictSet acc cfg.agentId ⟨cfg.agentId, [], [], rep⟩) [],
    wrongPasswordAttempts := 0,
    verboseEvents := [],
    agentNames := [],
    failedPasswords := none }

/-- One executed agent turn, as recorded for the proofs: the timestep, the
acting agent, the environment right after the turn, and the summary. -/
structure TurnRec where
  step : Nat
  agentId : String
  envAfter : EnvState
  summary : String
deriving Repr, DecidableEq

/-- The inner `for cfg in self.persona_configs` loop of
`SimulationRunner.run_episode` (runner.py, lines 114-153): before each
agent's turn the room's escaped flag is checked and the round stops when it
is set. The agent's whole turn (`agent.run_timestep`) is abstracted as
`turnFn`, mapping the acting agent's id and the environment to the mutated
environment and the returned summary. -/
def runRound (turnFn : String → EnvState → EnvState × String) (step : Nat) :
    List AgentConfig → EnvState → EnvState × List TurnRec
  | [], env => (env, [])
  | cfg :: rest, env =>
    if env.room.escaped then (env, [])
    else
      let t := turnFn cfg.agentId env
      let r := runRound turnFn step rest t.1
      (r.1, ⟨step, cfg.agentId, t.1, t.2⟩ :: r.2)

/-- The outer `for step in range(self.settings.max_steps)` loop of
`SimulationRunner.run_episode` (runner.py, lines 102-165), with
`verbose_logger = None` (the default: no printing, and `verbose_events` is
not cleared). `fuel` is the number of remaining steps. Python logs each
summary right after the turn; appending them round-by-round in the same
order yields the same metrics. -/
def runSteps (personas : List AgentConfig)
    (turnFn : String → EnvState → EnvState × String) :
    Nat → Nat → EnvState → EpisodeMetrics → EnvState × EpisodeMetrics × List TurnRec
  | 0, _, env, m => (env, m, [])
  | fuel + 1, step, env, m =>
    let env0 := { env with publicState := { env.publicState with timestep := step } }
    if env0.room.escaped then (env0, m, [])
    else
      let r := runRound turnFn step personas env0
      let m1 := r.2.foldl (fun acc tr => acc.logSummary tr.agentId tr.step tr.summary) m
      let m2 := m1.updateStep r.1
      if r.1.room.escaped then (r.1, m2, r.2)
      else
        let rest := runSteps personas turnFn fuel (step + 1) r.1 m2
        (rest.1, rest.2.1, r.2 ++ rest.2.2)

/-- `SimulationRunner.run_episode` (runner.py, lines 81-168), seed unused
(reserved for a future RNG). The final `metrics.finalize(env_state)` call
at line 167 omits the `reputation_enabled` argument, whose Python default
is `False`. -/
def runEpisode (baseRoom : Room) (personas : List AgentConfig)
    (settings : ExperimentSettings)
    (turnFn : String → EnvState → EnvState × String) :
    EnvState × EpisodeMetrics × List TurnRec :=
  let env0 := initEnvState baseRoom personas settings
  let r := runSteps personas turnFn settings.maxSteps 0 env0 EpisodeMetrics.init
  (r.1, (r.2.1).finalize r.1 false, r.2.2)

/- ============== property definitions used by the theorems ============== -/

/-- Whether the oracle reply is a final assistant statement. -/
def LLMResponse.isAssistant : LLMResponse → Bool
  | .assistantMsg _ => true
  | .toolCall _ _ => false

/-- Whether a turn event records an invocation of the named tool (a normal
execution or one whose exception was caught); duplicate rejections are not
invocations. -/
def TurnEvent.isInvocationOf (ev : TurnEvent) (toolName : String) : Bool :=
  match ev with
  | .executedTool n _ => n = toolName
  | .erroredTool n _ => n = toolName
  | _ => false

/-- How many times the named tool was invoked during a turn. -/
def invocationCount (evs : List TurnEvent) (toolName : String) : Nat :=
  evs.countP (fun ev => ev.isInvocationOf toolName)

/-- No agent's reputation map contains an entry keyed by its own agent id. -/
def NoSelfRep (env : EnvState) : Prop :=
  ∀ p ∈ env.agentStates, ∀ q ∈ p.2.reputation, q.1 ≠ p.1

/-- The environment after one `update_reputation` call through the Action
Mediator; a raised exception (caught by the Turn Controller) leaves the
environment unchanged. -/
def envAfterUpdate (env : EnvState) (agentId : String)
    (updates : List (String × ℚ)) : EnvState :=
  match updateReputationTool env agentId updates with
  | .ok r => r.1
  | .error _ => env

/-- Every recorded turn except possibly the last one left the room
un-escaped: once a turn's post-state shows `escaped`, no further turn was
given to anyone. -/
def allButLastNotEscaped : List TurnRec → Prop
  | [] => True
  | [_] => True
  | tr :: tr' :: rest =>
    tr.envAfter.room.escaped = false ∧ allButLastNotEscaped (tr' :: rest)

/- ===================== concrete fixtures ===================== -/

/-- A lock in the style of the shipped `room_simple_1` definition. -/
def sampleLock : Lock :=
  { password := "1234", passwordType := "code",
    onSuccessText := "The side door swings open!",
    onFailureText := "The code is rejected.",
    revealObjects := ["gem"], escape := true }

/-- A visible locked door. -/
def sampleDoor : RoomObject :=
  { id := "side_door", name := "Side Door", category := "door",
    visible := true, inspectText := some "A sturdy door with a keypad.",
    lock := some sampleLock }

/-- A hidden gem revealed by the door's lock. -/
def sampleGem : RoomObject :=
  { id := "gem", name := "Gem", category := "clue", visible := false,
    inspectText := none, lock := none }

/-- A two-object room: a visible locked door that reveals a hidden gem and
escapes the room. -/
def sampleRoom : Room :=
  { roomId := "room_simple_1", title := "The Study", intro := "A locked study.",
    objects := [("side_door", sampleDoor), ("gem", sampleGem)],
    escaped := false }

/-- Persona fixture. -/
def alice : AgentConfig :=
  { agentId := "alice", name := "Alice", roleDescription := "strategist",
    isMalicious := false, maliceStyle := none }

/-- Persona fixture. -/
def bob : AgentConfig :=
  { agentId := "bob", name := "Bob", roleDescription := "searcher",
    isMalicious := false, maliceStyle := none }

/-- Two-persona configuration. -/
def samplePersonas : List AgentConfig := [alice, bob]

/-- Settings with reputation tracking enabled and `max_steps = 0`. -/
def repSettings : ExperimentSettings :=
  { adversaryEnabled := false, reputationEnabled := true,
    gossipEnabled := false, maxSteps := 0 }

/-- Settings with every optional channel disabled and `max_steps = 1`. -/
def plainSettings : ExperimentSettings :=
  { adversaryEnabled := false, reputationEnabled := false,
    gossipEnabled := false, maxSteps := 1 }

/-- Dispatch table keys with gossip and reputation disabled. -/
def baseAvail : List String := dispatchNames false false

/-- Episode state right after `init_env_state` with the plain settings. -/
def sampleEnv : EnvState := initEnvState sampleRoom samplePersonas plainSettings

/-- Episode state right after `init_env_state` with reputation enabled. -/
def sampleEnvRep : EnvState := initEnvState sampleRoom samplePersonas repSettings

/-- A turn function that takes no action and never escapes. -/
def idleTurn : String → EnvState → EnvState × String := fun _ env => (env, "waiting")

/-- Oracle that asks to inspect the same object twice, then finishes. -/
def doubleInspectOracle : Nat → LLMResponse := fun i =>
  if i = 0 then .toolCall "inspect_object" (.inspectArgs "side_door")
  else if i = 1 then .toolCall "inspect_object" (.inspectArgs "side_door")
  else .assistantMsg "done"

/-- Oracle that never produces a final statement. -/
def toolOnlyOracle : Nat → LLMResponse := fun _ =>
  .toolCall "send_public" (.sendPublicArgs "hi")

/-- Episode-metrics fixture: success in 5 steps. -/
def epA : EpisodeMetrics := { EpisodeMetrics.init with success := true, stepsTaken := 5 }

/-- Episode-metrics fixture: failure after 30 steps. -/
def epB : EpisodeMetrics := { EpisodeMetrics.init with success := false, stepsTaken := 30 }

/-- Episode-metrics fixture: success in 7 steps. -/
def epC : EpisodeMetrics := { EpisodeMetrics.init with success := true, stepsTaken := 7 }

/-- A mid-turn state in which `inspect_object` was already used. -/
def sampleTurnState : TurnState :=
  { toolsUsed := ["inspect_object"], messages := [], env := sampleEnv }

/- ===================== helper lemmas ===================== -/

theorem dictGet_mem {α : Type} {d : List (String × α)} {k : String} {v : α}
    (h : dictGet d k = some v) : (k, v) ∈ d := by
  induction d with
  | nil => simp [dictGet] at h
  | cons p rest ih =>
    obtain ⟨a, b⟩ := p
    rw [dictGet] at h
    by_cases hk : a = k
    · rw [if_pos hk] at h
      injection h with h
      rw [← hk, ← h]
      exact List.mem_cons_self _ _
    · rw [if_neg hk] at h
      exact List.mem_cons_of_mem _ (ih h)

theorem mem_dictSet {α : Type} {d : List (String × α)} {k : String} {v : α} {p : String × α}
    (h : p ∈ dictSet d k v) : p ∈ d ∨ p = (k, v) := by
  unfold dictSet at h
  by_cases hs : (dictGet d k).isSome
  · rw [if_pos hs] at h
    rcases List.mem_map.mp h with ⟨q, hq, hqe⟩
    by_cases hqk : q.1 = k
    · right
      rw [if_pos hqk] at hqe
      exact hqe.symm
    · left
      rw [if_neg hqk] at hqe
      exact hqe ▸ hq
  · rw [if_neg hs] at h
    rcases List.mem_append.mp h with h1 | h1
    · exact Or.inl h1
    · exact Or.inr (List.mem_singleton.mp h1)

theorem dictGet_revealOne (objs : List (String × RoomObject)) (oid k : String) :
    dictGet (revealOne objs oid) k =
      if k = oid then (dictGet objs k).map (fun o => { o with visible := true })
      else dictGet objs k := by
  induction objs with
  | nil => by_cases hk : k = oid <;> simp [revealOne, dictGet, hk]
  | cons p rest ih =>
    obtain ⟨a, b⟩ := p
    rw [show revealOne ((a, b) :: rest) oid =
      (if a = oid then (a, { b with visible := true }) else (a, b)) :: revealOne rest oid
      from rfl]
    by_cases ha : a = oid
    · rw [if_pos ha, dictGet]
      by_cases hak : a = k
      · have hko : k = oid := by rw [← hak]; exact ha
        rw [if_pos hak, if_pos hko, dictGet, if_pos hak]
        rfl
      · rw [if_neg hak, ih, dictGet, if_neg hak]
    · rw [if_neg ha, dictGet]
      by_cases hak : a = k
      · have hko : ¬ k = oid := fun hh => ha (hak.trans hh)
        rw [if_pos hak, if_neg hko, dictGet, if_pos hak]
      · rw [if_neg hak, ih, dictGet, if_neg hak]

theorem dictGet_revealAll (objs : List (String × RoomObject)) (oids : List String)
    (k : String) :
    dictGet (revealAll objs oids) k =
      if k ∈ oids then (dictGet objs k).map (fun o => { o with visible := true })
      else dictGet objs k := by
  induction oids generalizing objs with
  | nil => simp [revealAll]
  | cons a rest ih =>
    rw [revealAll, List.foldl_cons, ← revealAll, ih, dictGet_revealOne]
    have hset : ∀ x : Option RoomObject,
        (x.map (fun o => { o with visible := true })).map
            (fun o => { o with visible := true }) =
          x.map (fun o => { o with visible := true }) := by
      intro x; cases x <;> rfl
    simp only [List.mem_cons]
    by_cases hk : k = a
    · by_cases hmem : k ∈ rest
      · rw [if_pos hmem, if_pos hk, if_pos (Or.inl hk), hset]
      · rw [if_neg hmem, if_pos hk, if_pos (Or.inl hk)]
    · by_cases hmem : k ∈ rest
      · rw [if_pos hmem, if_neg hk, if_pos (Or.inr hmem)]
      · rw [if_neg hmem, if_neg hk, if_neg (fun hh => hh.elim hk hmem)]

theorem tryPassword_success {r : Room} {objectId password : String}
    {obj : RoomObject} {l : Lock}
    (hobj : dictGet r.objects objectId = some obj) (hlock : obj.lock = some l)
    (hpw : password = l.password) :
    r.tryPassword objectId password =
      ({ r with
          objects := revealAll r.objects l.revealObjects,
          escaped := if l.escape then true else r.escaped }, l.onSuccessText) := by
  rw [Room.tryPassword, hobj]
  dsimp only
  rw [hlock]
  dsimp only
  rw [if_pos hpw]

theorem tryPassword_room_cases (r : Room) (objectId password : String) :
    (r.tryPassword objectId password).1 = r ∨
      ∃ l : Lock, (r.tryPassword objectId password).1 =
        { r with
            objects := revealAll r.objects l.revealObjects,
            escaped := if l.escape then true else r.escaped } := by
  rw [Room.tryPassword]
  cases hobj : dictGet r.objects objectId with
  | none => exact Or.inl rfl
  | some obj =>
    dsimp only
    cases hlock : obj.lock with
    | none => exact Or.inl rfl
    | some l =>
      dsimp only
      by_cases hpw : password = l.password
      · rw [if_pos hpw]
        exact Or.inr ⟨l, rfl⟩
      · rw [if_neg hpw]
        exact Or.inl rfl

theorem tryPassword_visible_monotone {r : Room} (objectId password : String)
    {oid : String} {o : RoomObject} (h : dictGet r.objects oid = some o)
    (hv : o.visible = true) :
    ∃ o', dictGet (r.tryPassword objectId password).1.objects oid = some o' ∧
      o'.visible = true := by
  rcases tryPassword_room_cases r objectId password with hc | ⟨l, hc⟩
  · exact ⟨o, by rw [hc, h], hv⟩
  · rw [hc]
    simp only [dictGet_revealAll]
    by_cases hmem : oid ∈ l.revealObjects
    · exact ⟨{ o with visible := true }, by rw [if_pos hmem, h]; rfl, rfl⟩
    · exact ⟨o, by rw [if_neg hmem, h], hv⟩

theorem tryPassword_escaped_monotone {r : Room} (objectId password : String)
    (h : r.escaped = true) : (r.tryPassword objectId password).1.escaped = true := by
  rcases tryPassword_room_cases r objectId password with hc | ⟨l, hc⟩
  · rw [hc]; exact h
  · rw [hc]
    by_cases he : l.escape <;> simp [he, h]

theorem tryPasswordTool_room {env : EnvState} {agentId objectId password : String}
    {env' : EnvState} {s : String}
    (h : tryPasswordTool env agentId objectId password = .ok (env', s)) :
    env'.room = env.room ∨ env'.room = (env.room.tryPassword objectId password).1 := by
  rw [tryPasswordTool] at h
  cases hfp : env.failedPasswords with
  | none => rw [hfp] at h; exact absurd h (by simp)
  | some fp0 =>
    rw [hfp] at h
    dsimp only at h
    split at h <;> split at h <;>
      (injection h with h
       first
       | exact Or.inl ((congrArg (fun p => p.1.room) h).symm.trans rfl)
       | exact Or.inr ((congrArg (fun p => p.1.room) h).symm.trans rfl))

theorem inspectObjectTool_room {env : EnvState} {agentId objectId : String}
    {env' : EnvState} {s : String}
    (h : inspectObjectTool env agentId objectId = .ok (env', s)) :
    env'.room = env.room := by
  rw [inspectObjectTool] at h
  cases hst : dictGet env.agentStates agentId with
  | none => rw [hst] at h; exact absurd h (by simp)
  | some st =>
    rw [hst] at h
    dsimp only at h
    injection h with h
    exact (congrArg (fun p => p.1.room) h).symm.trans rfl

theorem foldl_room_preserved {β : Type} (f : EnvState → β → EnvState)
    (hf : ∀ e b, (f e b).room = e.room) :
    ∀ (l : List β) (env : EnvState), (l.foldl f env).room = env.room := by
  intro l
  induction l with
  | nil => intro env; rfl
  | cons b rest ih =>
    intro env
    rw [List.foldl_cons, ih, hf]

theorem sendPrivateTool_room (env : EnvState) (agentId : String)
    (rs : List String) (m : String) :
    (sendPrivateTool env agentId rs m).1.room = env.room := by
  rw [sendPrivateTool]
  dsimp only
  exact foldl_room_preserved _
    (fun e rid => by cases h : dictGet e.agentStates rid <;> simp [h]) _ env

theorem updateReputationTool_room {env : EnvState} {agentId : String}
    {us : List (String × ℚ)} {env' : EnvState} {s : String}
    (h : updateReputationTool env agentId us = .ok (env', s)) :
    env'.room = env.room := by
  rw [updateReputationTool] at h
  cases hst : dictGet env.agentStates agentId with
  | none => rw [hst] at h; exact absurd h (by simp)
  | some st =>
    rw [hst] at h
    dsimp only at h
    split at h <;>
      (injection h with h
       exact (congrArg (fun p => p.1.room) h).symm.trans rfl)

/- ===================== claim theorems ===================== -/

/-- C3: for every object with a lock, calling the Room's `try_password`
with the exact (case-sensitive) correct password sets every object listed
in the lock's `reveal_objects` (and present in the room) to visible, sets
the room's escaped flag when the lock's `escape` flag is set, and returns
the lock's success text; and no operation — `Room.try_password` itself or
any tool of the Action Mediator — ever brings an object's visible flag or
the room's escaped flag from true back to false. -/
theorem C3_correct_password_and_monotonicity :
    (∀ (r : Room) (objectId password : String) (obj : RoomObject) (l : Lock),
        dictGet r.objects objectId = some obj → obj.lock = some l →
        password = l.password →
          (∀ oid ∈ l.revealObjects, ∀ o,
              dictGet (r.tryPassword objectId password).1.objects oid = some o →
                o.visible = true)
          ∧ (l.escape = true → (r.tryPassword objectId password).1.escaped = true)
          ∧ (r.tryPassword objectId password).2 = l.onSuccessText)
    ∧ (∀ (r : Room) (objectId password oid : String) (o : RoomObject),
        dictGet r.objects oid = some o → o.visible = true →
          ∃ o', dictGet (r.tryPassword objectId password).1.objects oid = some o'
            ∧ o'.visible = true)
    ∧ (∀ (r : Room) (objectId password : String),
        r.escaped = true → (r.tryPassword objectId password).1.escaped = true)
    ∧ (∀ (env : EnvState) (agentId objectId password : String)
        (env' : EnvState) (s : String),
        tryPasswordTool env agentId objectId password = Except.ok (env', s) →
          (∀ oid o, dictGet env.room.objects oid = some o → o.visible = true →
            ∃ o', dictGet env'.room.objects oid = some o' ∧ o'.visible = true)
          ∧ (env.room.escaped = true → env'.room.escaped = true))
    ∧ (∀ (env : EnvState) (agentId objectId : String) (env' : EnvState) (s : String),
        inspectObjectTool env agentId objectId = Except.ok (env', s) →
          env'.room = env.room)
    ∧ (∀ (env : EnvState) (agentId m : String),
        (sendPublicTool env agentId m).1.room = env.room)
    ∧ (∀ (env : EnvState) (agentId : String) (rs : List String) (m : String),
        (sendPrivateTool env agentId rs m).1.room = env.room)
    ∧ (∀ (env : EnvState) (agentId : String) (us : List (String × ℚ))
        (env' : EnvState) (s : String),
        updateReputationTool env agentId us = Except.ok (env', s) →
          env'.room = env.room) := by
  refine ⟨?_, ?_, ?_, ?_, ?_, ?_, ?_, ?_⟩
  · intro r objectId password obj l hobj hlock hpw
    rw [tryPassword_success hobj hlock hpw]
    refine ⟨?_, ?_, rfl⟩
    · intro oid hmem o ho
      dsimp only at ho
      rw [dictGet_revealAll, if_pos hmem] at ho
      cases hg : dictGet r.objects oid with
      | none => rw [hg] at ho; exact absurd ho (by simp)
      | some o0 =>
        rw [hg] at ho
        injection ho with ho
        rw [← ho]
    · intro he
      dsimp only
      simp [he]
  · intro r objectId password oid o ho hv
    exact tryPassword_visible_monotone objectId password ho hv
  · intro r objectId password he
    exact tryPassword_escaped_monotone objectId password he
  · intro env agentId objectId password env' s h
    rcases tryPasswordTool_room h with hr | hr
    · rw [hr]
      exact ⟨fun oid o ho hv => ⟨o, ho, hv⟩, fun he => he⟩
    · rw [hr]
      exact ⟨fun oid o ho hv => tryPassword_visible_monotone objectId password ho hv,
        fun he => tryPassword_escaped_monotone objectId password he⟩
  · intro env agentId objectId env' s h
    exact inspectObjectTool_room h
  · intro env agentId m
    rfl
  · intro env agentId rs m
    exact sendPrivateTool_room env agentId rs m
  · intro env agentId us env' s h
    exact updateReputationTool_room h

/-- Witness for C3 on the concrete sample room: trying "1234" on the side
door escapes the room, returns the success text, and reveals the gem. -/
theorem C3_witness :
    (sampleRoom.tryPassword "side_door" "1234").1.escaped = true
    ∧ (sampleRoom.tryPassword "side_door" "1234").2 = "The side door swings open!"
    ∧ ((dictGet (sampleRoom.tryPassword "side_door" "1234").1.objects "gem").map
        RoomObject.visible).getD false = true := by
  obtain ⟨h1, -⟩ := C3_correct_password_and_monotonicity
  have hs := h1 sampleRoom "side_door" "1234" sampleDoor sampleLock (by decide) rfl rfl
  refine ⟨hs.2.1 rfl, hs.2.2, ?_⟩
  cases hg : dictGet (sampleRoom.tryPassword "side_door" "1234").1.objects "gem" with
  | none => exact absurd hg (by decide)
  | some o =>
    have hv := hs.1 "gem" (by decide) o hg
    simp [hv]

theorem foldl_env_preserved {β γ : Type} (proj : EnvState → γ)
    (f : EnvState → β → EnvState) (hf : ∀ e b, proj (f e b) = proj e) :
    ∀ (l : List β) (env : EnvState), proj (l.foldl f env) = proj env := by
  intro l
  induction l with
  | nil => intro env; rfl
  | cons b rest ih =>
    intro env
    rw [List.foldl_cons, ih, hf]

/-- C1 (code defect): the `EnvState` dataclass has no `failed_passwords`
field, `init_env_state` does not create one, and no tool ever assigns it,
so every `try_password` call through the Action Mediator raises
`AttributeError` at its first read of `env.failed_passwords`: the
wrong-attempt counter is never incremented, no (object, password) pair is
ever recorded, and the skip path is unreachable. -/
theorem C1_failed_passwords_attribute_missing :
    (∀ (baseRoom : Room) (personas : List AgentConfig) (settings : ExperimentSettings),
        (initEnvState baseRoom personas settings).failedPasswords = none)
    ∧ (∀ (env : EnvState) (agentId objectId : String) (env' : EnvState) (s : String),
        inspectObjectTool env agentId objectId = Except.ok (env', s) →
          env'.failedPasswords = env.failedPasswords)
    ∧ (∀ (env : EnvState) (agentId m : String),
        (sendPublicTool env agentId m).1.failedPasswords = env.failedPasswords)
    ∧ (∀ (env : EnvState) (agentId : String) (rs : List String) (m : String),
        (sendPrivateTool env agentId rs m).1.failedPasswords = env.failedPasswords)
    ∧ (∀ (env : EnvState) (agentId : String) (us : List (String × ℚ))
        (env' : EnvState) (s : String),
        updateReputationTool env agentId us = Except.ok (env', s) →
          env'.failedPasswords = env.failedPasswords)
    ∧ (∀ (env : EnvState) (agentId objectId password : String),
        env.failedPasswords = none →
          tryPasswordTool env agentId objectId password =
            Except.error
              "AttributeError: \x27EnvState\x27 object has no attribute \x27failed_passwords\x27") := by
  refine ⟨fun _ _ _ => rfl, ?_, fun _ _ _ => rfl, ?_, ?_, ?_⟩
  · intro env agentId objectId env' s h
    rw [inspectObjectTool] at h
    cases hst : dictGet env.agentStates agentId with
    | none => rw [hst] at h; exact absurd h (by simp)
    | some st =>
      rw [hst] at h
      dsimp only at h
      injection h with h
      exact (congrArg (fun p => p.1.failedPasswords) h).symm.trans rfl
  · intro env agentId rs m
    rw [sendPrivateTool]
    dsimp only
    exact foldl_env_preserved EnvState.failedPasswords _
      (fun e rid => by cases h : dictGet e.agentStates rid <;> simp [h]) _ env
  · intro env agentId us env' s h
    rw [updateReputationTool] at h
    cases hst : dictGet env.agentStates agentId with
    | none => rw [hst] at h; exact absurd h (by simp)
    | some st =>
      rw [hst] at h
      dsimp only at h
      split at h <;>
        (injection h with h
         exact (congrArg (fun p => p.1.failedPasswords) h).symm.trans rfl)
  · intro env agentId objectId password hfp
    rw [tryPasswordTool, hfp]

/-- Witness for C1: on the freshly initialized sample episode state, the
mediator-level `try_password` raises instead of recording the attempt. -/
theorem C1_witness :
    tryPasswordTool sampleEnv "alice" "side_door" "0000" =
      Except.error
        "AttributeError: \x27EnvState\x27 object has no attribute \x27failed_passwords\x27" :=
  C1_failed_passwords_attribute_missing.2.2.2.2.2 sampleEnv "alice" "side_door" "0000" rfl

theorem foldl_logSummary_finalRep (l : List TurnRec) :
    ∀ m : EpisodeMetrics,
      (l.foldl (fun acc tr => acc.logSummary tr.agentId tr.step tr.summary)
          m).finalReputationScores = m.finalReputationScores := by
  induction l with
  | nil => intro m; rfl
  | cons tr rest ih =>
    intro m
    rw [List.foldl_cons, ih]
    rfl

theorem runSteps_finalRep (personas : List AgentConfig)
    (tf : String → EnvState → EnvState × String) :
    ∀ (fuel step : Nat) (env : EnvState) (m : EpisodeMetrics),
      ((runSteps personas tf fuel step env m).2.1).finalReputationScores
        = m.finalReputationScores := by
  intro fuel
  induction fuel with
  | zero => intro step env m; rfl
  | succ n ih =>
    intro step env m
    rw [runSteps]
    dsimp only
    split
    · rfl
    · split
      · exact foldl_logSummary_finalRep _ m
      · rw [ih]
        exact foldl_logSummary_finalRep _ m

/-- C2 (code defect): `run_episode` finalizes metrics without passing
`reputation_enabled` (whose Python default is `False`), so the per-episode
`final_reputation_scores` dict is empty for every episode — even with
reputation tracking enabled, where `finalize` called with the flag would
report each agent's mean incoming score (1.0 for both seeded agents in the
concrete two-persona, zero-step episode). -/
theorem C2_final_reputation_never_populated :
    (∀ (baseRoom : Room) (personas : List AgentConfig)
        (settings : ExperimentSettings) (turnFn : String → EnvState → EnvState × String),
        ((runEpisode baseRoom personas settings turnFn).2.1).finalReputationScores = [])
    ∧ ((runEpisode sampleRoom samplePersonas repSettings idleTurn).2.1).finalReputationScores
        = []
    ∧ (EpisodeMetrics.init.finalize
          (runEpisode sampleRoom samplePersonas repSettings idleTurn).1
          true).finalReputationScores = [("alice", 1), ("bob", 1)] := by
  have hgen : ∀ (baseRoom : Room) (personas : List AgentConfig)
      (settings : ExperimentSettings) (turnFn : String → EnvState → EnvState × String),
      ((runEpisode baseRoom personas settings turnFn).2.1).finalReputationScores = [] := by
    intro baseRoom personas settings turnFn
    show ((runSteps personas turnFn settings.maxSteps 0
        (initEnvState baseRoom personas settings)
        EpisodeMetrics.init).2.1.finalize _ false).finalReputationScores = []
    rw [show ∀ (m : EpisodeMetrics) (e : EnvState),
        (m.finalize e false).finalReputationScores = m.finalReputationScores
      from fun m e => rfl]
    exact runSteps_finalRep personas turnFn settings.maxSteps 0 _ _
  refine ⟨hgen, hgen sampleRoom samplePersonas repSettings idleTurn, ?_⟩
  show (EpisodeMetrics.init.finalize
      (initEnvState sampleRoom samplePersonas repSettings) true).finalReputationScores
    = [("alice", 1), ("bob", 1)]
  simp +decide [EpisodeMetrics.finalize, EpisodeMetrics.init, initEnvState, repScoresFor,
    dictGet, dictSet, samplePersonas, alice, bob, repSettings, List.filterMap]

/-- C9: an episode with `max_steps = 0` on a room that does not start
escaped takes no agent turns and reports `steps_taken = 0`,
`success = false`. -/
theorem C9_zero_steps_episode (baseRoom : Room) (personas : List AgentConfig)
    (settings : ExperimentSettings) (turnFn : String → EnvState → EnvState × String)
    (hms : settings.maxSteps = 0) (hesc : baseRoom.escaped = false) :
    (runEpisode baseRoom personas settings turnFn).2.2 = []
    ∧ ((runEpisode baseRoom personas settings turnFn).2.1).stepsTaken = 0
    ∧ ((runEpisode baseRoom personas settings turnFn).2.1).success = false := by
  refine ⟨?_, ?_, ?_⟩
  · unfold runEpisode
    rw [hms]
    rfl
  · unfold runEpisode
    rw [hms]
    rfl
  · have hsucc : ((runEpisode baseRoom personas settings turnFn).2.1).success
        = baseRoom.escaped := by
      unfold runEpisode
      rw [hms]
      rfl
    rw [hsucc, hesc]

/-- Witness for C9 on the concrete fixtures (`max_steps = 0`, room not
escaped): empty trace, zero steps, no success. -/
theorem C9_witness :
    (runEpisode sampleRoom samplePersonas repSettings idleTurn).2.2 = []
    ∧ ((runEpisode sampleRoom samplePersonas repSettings idleTurn).2.1).stepsTaken = 0
    ∧ ((runEpisode sampleRoom samplePersonas repSettings idleTurn).2.1).success = false :=
  C9_zero_steps_episode sampleRoom samplePersonas repSettings idleTurn rfl rfl

/-- C8: the run-level aggregate reports success rate = successes / N (0
when N = 0) and average steps-taken computed only over successful episodes
(0 when none succeeded); for outcomes [success@5, failure@30, success@7]
the rate is 2/3 and the average steps-if-success is 6. -/
theorem C8_aggregate_success_rate_and_steps :
    ((accSummary []).successRate = 0 ∧ (accSummary []).avgStepsIfSuccess = 0)
    ∧ (∀ episodes : List EpisodeMetrics, episodes ≠ [] →
        (accSummary episodes).successRate
          = ((episodes.countP (·.success)) : ℚ) / (episodes.length : ℚ))
    ∧ (∀ episodes : List EpisodeMetrics, episodes.filter (·.success) ≠ [] →
        (accSummary episodes).avgStepsIfSuccess
          = (((episodes.filter (·.success)).map (·.stepsTaken)).sum : ℚ)
              / ((episodes.filter (·.success)).length : ℚ))
    ∧ (∀ episodes : List EpisodeMetrics, episodes ≠ [] →
        episodes.filter (·.success) = [] →
        (accSummary episodes).avgStepsIfSuccess = 0)
    ∧ (accSummary [epA, epB, epC]).successRate = 2 / 3
    ∧ (accSummary [epA, epB, epC]).avgStepsIfSuccess = 6 := by
  have hlen : ∀ episodes : List EpisodeMetrics, episodes ≠ [] →
      ¬ episodes.length = 0 := by
    intro episodes h hh
    exact h (List.length_eq_zero.mp hh)
  refine ⟨⟨rfl, rfl⟩, ?_, ?_, ?_, ?_, ?_⟩
  · intro episodes h
    rw [accSummary, if_neg (hlen episodes h)]
    dsimp only
    rw [List.countP_eq_length_filter]
  · intro episodes h
    rw [accSummary]
    by_cases h0 : episodes.length = 0
    · exact absurd (List.length_eq_zero.mp h0) (by
        intro he
        rw [he] at h
        exact h rfl)
    · rw [if_neg h0]
      dsimp only
      rw [if_pos h]
  · intro episodes h hf
    rw [accSummary, if_neg (hlen episodes h)]
    dsimp only
    rw [if_neg (fun hh => hh hf)]
  · norm_num [accSummary, epA, epB, epC, EpisodeMetrics.init]
    try exact List.cons_ne_nil _ _
  · norm_num [accSummary, epA, epB, epC, EpisodeMetrics.init]
    try exact List.cons_ne_nil _ _

/-- Witness for C8 at the concrete three-episode list. -/
theorem C8_witness :
    (accSummary [epA, epB, epC]).successRate
      = (([epA, epB, epC].countP (·.success)) : ℚ) / (([epA, epB, epC].length : ℚ)) :=
  C8_aggregate_success_rate_and_steps.2.1 [epA, epB, epC] (by simp)

theorem updates_fold_no_self (env : EnvState) (agentId : String) :
    ∀ (updates : List (String × ℚ)) (rep : List (String × ℚ)),
      (∀ q ∈ rep, q.1 ≠ agentId) →
      ∀ q ∈ updates.foldl (fun rep u =>
          match resolveLabel env u.1 with
          | none => rep
          | some targetId =>
            if targetId = agentId then rep else dictSet rep targetId u.2) rep,
        q.1 ≠ agentId := by
  intro updates
  induction updates with
  | nil => intro rep hr; exact hr
  | cons u rest ih =>
    intro rep hr
    rw [List.foldl_cons]
    apply ih
    intro q hq
    cases hres : resolveLabel env u.1 with
    | none => rw [hres] at hq; exact hr q hq
    | some targetId =>
      rw [hres] at hq
      dsimp only at hq
      by_cases htgt : targetId = agentId
      · rw [if_pos htgt] at hq
        exact hr q hq
      · rw [if_neg htgt] at hq
        rcases mem_dictSet hq with hmem | heq
        · exact hr q hmem
        · subst heq
          exact htgt

theorem foldl_init_no_self (personas : List AgentConfig) (settings : ExperimentSettings) :
    ∀ (l : List AgentConfig) (acc : List (String × AgentPrivateState)),
      (∀ p ∈ acc, ∀ q ∈ p.2.reputation, q.1 ≠ p.1) →
      ∀ p ∈ l.foldl (fun acc cfg =>
          dictSet acc cfg.agentId
            ⟨cfg.agentId, [], [],
              if settings.reputationEnabled then
                (personas.filter (fun o => o.agentId ≠ cfg.agentId)).map
                  (fun o => (o.agentId, (1 : ℚ)))
              else []⟩) acc,
        ∀ q ∈ p.2.reputation, q.1 ≠ p.1 := by
  intro l
  induction l with
  | nil => intro acc ha; exact ha
  | cons cfg rest ih =>
    intro acc ha
    rw [List.foldl_cons]
    apply ih
    intro p hp
    rcases mem_dictSet hp with hmem | heq
    · exact ha p hmem
    · subst heq
      intro q hq
      dsimp only at hq ⊢
      split at hq
      · rcases List.mem_map.mp hq with ⟨o, ho, rfl⟩
        have hfo := (List.mem_filter.mp ho).2
        simpa using hfo
      · exact absurd hq (List.not_mem_nil q)

theorem updateReputation_preserves_no_self (env : EnvState) (agentId : String)
    (updates : List (String × ℚ)) (h : NoSelfRep env) :
    NoSelfRep (envAfterUpdate env agentId updates) := by
  unfold envAfterUpdate
  cases hr : updateReputationTool env agentId updates with
  | error e => exact h
  | ok r =>
    dsimp only
    rw [updateReputationTool] at hr
    cases hst : dictGet env.agentStates agentId with
    | none => rw [hst] at hr; exact absurd hr (by simp)
    | some st =>
      rw [hst] at hr
      dsimp only at hr
      split at hr
      · injection hr with hr
        rw [← congrArg Prod.fst hr]
        exact h
      · injection hr with hr
        rw [← congrArg Prod.fst hr]
        dsimp only
        intro p hp
        rcases mem_dictSet hp with hmem | heq
        · exact h p hmem
        · subst heq
          intro q hq
          dsimp only at hq ⊢
          have hbase : ∀ q ∈ st.reputation, q.1 ≠ agentId :=
            fun q hq => h (agentId, st) (dictGet_mem hst) q hq
          exact updates_fold_no_self env agentId updates st.reputation hbase q hq

/-- C4: no agent's reputation map ever holds an entry keyed by its own
agent id: this holds after `init_env_state` (which seeds 1.0 toward every
other persona and no self-entry) and is preserved by every single
`update_reputation` call and by every sequence of such calls, including
ones targeting the caller's own id or display name. -/
theorem C4_reputation_never_self :
    (∀ (baseRoom : Room) (personas : List AgentConfig) (settings : ExperimentSettings),
        NoSelfRep (initEnvState baseRoom personas settings))
    ∧ (∀ (env : EnvState) (agentId : String) (updates : List (String × ℚ)),
        NoSelfRep env → NoSelfRep (envAfterUpdate env agentId updates))
    ∧ (∀ (baseRoom : Room) (personas : List AgentConfig)
        (settings : ExperimentSettings) (calls : List (String × List (String × ℚ))),
        NoSelfRep (calls.foldl (fun e c => envAfterUpdate e c.1 c.2)
          (initEnvState baseRoom personas settings))) := by
  have hinit : ∀ (baseRoom : Room) (personas : List AgentConfig)
      (settings : ExperimentSettings),
      NoSelfRep (initEnvState baseRoom personas settings) := by
    intro baseRoom personas settings p hp
    exact foldl_init_no_self personas settings personas []
      (by intro p hp; cases hp) p hp
  have hstep : ∀ (env : EnvState) (agentId : String) (updates : List (String × ℚ)),
      NoSelfRep env → NoSelfRep (envAfterUpdate env agentId updates) :=
    fun env agentId updates h => updateReputation_preserves_no_self env agentId updates h
  refine ⟨hinit, hstep, ?_⟩
  intro baseRoom personas settings calls
  have : ∀ (cs : List (String × List (String × ℚ))) (e : EnvState), NoSelfRep e →
      NoSelfRep (cs.foldl (fun e c => envAfterUpdate e c.1 c.2) e) := by
    intro cs
    induction cs with
    | nil => intro e he; exact he
    | cons c rest ih =>
      intro e he
      rw [List.foldl_cons]
      exact ih _ (hstep e c.1 c.2 he)
  exact this calls _ (hinit baseRoom personas settings)

/-- Witness for C4: an update that targets the caller's own id and its own
display name (and a teammate) still leaves no self-entry anywhere. -/
theorem C4_witness :
    NoSelfRep (envAfterUpdate sampleEnvRep "alice"
      [("alice", 0), ("Alice", 5), ("bob", 2)]) :=
  C4_reputation_never_self.2.1 sampleEnvRep "alice"
    [("alice", 0), ("Alice", 5), ("bob", 2)]
    (show ∀ p ∈ sampleEnvRep.agentStates, ∀ q ∈ p.2.reputation, q.1 ≠ p.1 by decide)

theorem dictGet_eq_none_of_all {α : Type} {d : List (String × α)} {k : String}
    (h : ∀ p ∈ d, p.1 ≠ k) : dictGet d k = none := by
  induction d with
  | nil => rfl
  | cons p rest ih =>
    obtain ⟨a, b⟩ := p
    rw [dictGet, if_neg (h (a, b) (List.mem_cons_self _ _))]
    exact ih (fun q hq => h q (List.mem_cons_of_mem _ hq))

theorem resolveLabel_none {env : EnvState} {raw : String}
    (hnames : env.agentNames = [])
    (hids : ∀ p ∈ env.agentStates, strLower p.1 ≠ strLower (strTrim raw)) :
    resolveLabel env raw = none := by
  rw [resolveLabel]
  have hid : dictGetLast (idByLower env) (strLower (strTrim raw)) = none := by
    rw [dictGetLast]
    apply dictGet_eq_none_of_all
    intro p hp
    rw [List.mem_reverse] at hp
    rcases List.mem_map.mp hp with ⟨q, hq, rfl⟩
    exact hids q hq
  rw [hid]
  dsimp only
  rw [dictGetLast, nameByLower, hnames]
  rfl

/-- C10: the agent-id-to-display-name mapping is empty after episode
initialization and no Action Mediator tool ever populates it; every
rendered sender label therefore falls back to the raw agent id, and a
recipient/target entry whose trimmed lowercase form matches no agent id
(in particular a display name that is not a case variant of an id) never
resolves in `send_private` or `update_reputation`. -/
theorem C10_agent_names_empty_and_unresolvable :
    (∀ (baseRoom : Room) (personas : List AgentConfig) (settings : ExperimentSettings),
        (initEnvState baseRoom personas settings).agentNames = [])
    ∧ (∀ (env : EnvState) (agentId objectId : String) (env' : EnvState) (s : String),
        inspectObjectTool env agentId objectId = Except.ok (env', s) →
          env'.agentNames = env.agentNames)
    ∧ (∀ (env : EnvState) (agentId objectId password : String)
        (env' : EnvState) (s : String),
        tryPasswordTool env agentId objectId password = Except.ok (env', s) →
          env'.agentNames = env.agentNames)
    ∧ (∀ (env : EnvState) (agentId m : String),
        (sendPublicTool env agentId m).1.agentNames = env.agentNames)
    ∧ (∀ (env : EnvState) (agentId : String) (rs : List String) (m : String),
        (sendPrivateTool env agentId rs m).1.agentNames = env.agentNames)
    ∧ (∀ (env : EnvState) (agentId : String) (us : List (String × ℚ))
        (env' : EnvState) (s : String),
        updateReputationTool env agentId us = Except.ok (env', s) →
          env'.agentNames = env.agentNames)
    ∧ (∀ (env : EnvState) (agentId : String), env.agentNames = [] →
        displayOf env agentId = agentId)
    ∧ (∀ (env : EnvState) (agentId m : String), env.agentNames = [] →
        (sendPublicTool env agentId m).1.publicState.publicChat
          = env.publicState.publicChat
            ++ [{ sender := agentId, timestep := env.publicState.timestep, text := m }])
    ∧ (∀ (env : EnvState) (raw : String), env.agentNames = [] →
        (∀ p ∈ env.agentStates, strLower p.1 ≠ strLower (strTrim raw)) →
        resolveLabel env raw = none) := by
  refine ⟨fun _ _ _ => rfl, ?_, ?_, fun _ _ _ => rfl, ?_, ?_, ?_, ?_, ?_⟩
  · intro env agentId objectId env' s h
    rw [inspectObjectTool] at h
    cases hst : dictGet env.agentStates agentId with
    | none => rw [hst] at h; exact absurd h (by simp)
    | some st =>
      rw [hst] at h
      dsimp only at h
      injection h with h
      exact (congrArg (fun p => p.1.agentNames) h).symm.trans rfl
  · intro env agentId objectId password env' s h
    rw [tryPasswordTool] at h
    cases hfp : env.failedPasswords with
    | none => rw [hfp] at h; exact absurd h (by simp)
    | some fp0 =>
      rw [hfp] at h
      dsimp only at h
      split at h <;> split at h <;>
        (injection h with h
         exact (congrArg (fun p => p.1.agentNames) h).symm.trans rfl)
  · intro env agentId rs m
    rw [sendPrivateTool]
    dsimp only
    exact foldl_env_preserved EnvState.agentNames _
      (fun e rid => by cases h : dictGet e.agentStates rid <;> simp [h]) _ env
  · intro env agentId us env' s h
    rw [updateReputationTool] at h
    cases hst : dictGet env.agentStates agentId with
    | none => rw [hst] at h; exact absurd h (by simp)
    | some st =>
      rw [hst] at h
      dsimp only at h
      split at h <;>
        (injection h with h
         exact (congrArg (fun p => p.1.agentNames) h).symm.trans rfl)
  · intro env agentId h
    rw [displayOf, h]
    rfl
  · intro env agentId m h
    have hd : displayOf env agentId = agentId := by rw [displayOf, h]; rfl
    rw [sendPublicTool]
    dsimp only
    rw [hd]
  · intro env raw h1 h2
    exact resolveLabel_none h1 h2

/-- Witness for C10: with the initialized (empty) name table, the sender
label for alice is the raw id, and the display-name-style label "Malerie"
resolves to nobody. -/
theorem C10_witness :
    displayOf sampleEnv "alice" = "alice"
    ∧ resolveLabel sampleEnv "Malerie" = none := by
  obtain ⟨-, -, -, -, -, -, h7, -, h9⟩ := C10_agent_names_empty_and_unresolvable
  exact ⟨h7 sampleEnv "alice" rfl, h9 sampleEnv "Malerie" rfl (by decide)⟩

theorem turnStep_finish_inv (cfg : AgentConfig) (repEnabled : Bool) (avail : List String)
    (st : TurnState) (resp : LLMResponse) (c : String)
    (h : turnStep cfg repEnabled avail st resp = .finishTurn c) :
    resp = .assistantMsg c := by
  cases resp with
  | toolCall name args =>
    rw [turnStep] at h
    try dsimp only at h
    split at h
    · exact absurd h (by simp)
    · cases hexec : execTool avail st.env cfg.agentId name args with
      | ok r => rw [hexec] at h; exact absurd h (by simp)
      | error e => rw [hexec] at h; exact absurd h (by simp)
  | assistantMsg content =>
    rw [turnStep] at h
    try dsimp only at h
    split at h
    · exact absurd h (by simp)
    · injection h with h
      rw [h]

theorem turnStep_toolCall_continue (cfg : AgentConfig) (repEnabled : Bool)
    (avail : List String) (st : TurnState) (name : String) (args : ToolArgs) :
    ∃ st1 ev, turnStep cfg repEnabled avail st (.toolCall name args)
      = .continueLoop st1 ev := by
  rw [turnStep]
  dsimp only
  split
  · exact ⟨_, _, rfl⟩
  · cases hexec : execTool avail st.env cfg.agentId name args with
    | ok r =>
      obtain ⟨env1, result⟩ := r
      exact ⟨_, _, rfl⟩
    | error e =>
      exact ⟨_, _, rfl⟩

theorem turnStep_continue_inv (cfg : AgentConfig) (repEnabled : Bool)
    (avail : List String) (st : TurnState) (resp : LLMResponse)
    (st1 : TurnState) (ev : TurnEvent)
    (h : turnStep cfg repEnabled avail st resp = .continueLoop st1 ev) :
    (st1.toolsUsed = st.toolsUsed ∧ ∀ m, ev.isInvocationOf m = false)
    ∨ (∃ name, name ∉ st.toolsUsed ∧ st1.toolsUsed = st.toolsUsed ++ [name]
        ∧ ∀ m, ev.isInvocationOf m = decide (name = m)) := by
  cases resp with
  | toolCall name args =>
    by_cases hmem : name ∈ st.toolsUsed
    · rw [turnStep] at h
      try dsimp only at h
      rw [if_pos hmem] at h
      injection h with h1 h2
      left
      exact ⟨by rw [← h1], fun m => by rw [← h2]; rfl⟩
    · rw [turnStep] at h
      try dsimp only at h
      rw [if_neg hmem] at h
      cases hexec : execTool avail st.env cfg.agentId name args with
      | ok r =>
        obtain ⟨env1, result⟩ := r
        rw [hexec] at h
        dsimp only at h
        injection h with h1 h2
        right
        exact ⟨name, hmem, by rw [← h1], fun m => by rw [← h2]; rfl⟩
      | error e =>
        rw [hexec] at h
        dsimp only at h
        injection h with h1 h2
        right
        exact ⟨name, hmem, by rw [← h1], fun m => by rw [← h2]; rfl⟩
  | assistantMsg content =>
    rw [turnStep] at h
    try dsimp only at h
    split at h
    · injection h with h1 h2
      left
      exact ⟨by rw [← h1], fun m => by rw [← h2]; rfl⟩
    · exact absurd h (by simp)

theorem runTurnLoop_inv_used (cfg : AgentConfig) (repEnabled : Bool)
    (avail : List String) (oracle : Nat → LLMResponse) (toolName : String) :
    ∀ (fuel callIdx : Nat) (st : TurnState), toolName ∈ st.toolsUsed →
      invocationCount
        (runTurnLoop cfg repEnabled avail oracle fuel callIdx st).2.1 toolName = 0 := by
  intro fuel
  induction fuel with
  | zero => intro callIdx st h; rfl
  | succ n ih =>
    intro callIdx st h
    rw [runTurnLoop]
    cases hstep : turnStep cfg repEnabled avail st (oracle callIdx) with
    | finishTurn c => rfl
    | continueLoop st1 ev =>
      dsimp only
      rw [invocationCount, List.countP_cons]
      rcases turnStep_continue_inv cfg repEnabled avail st (oracle callIdx) st1 ev hstep with
        ⟨hused, hev⟩ | ⟨nm, hnm, husd, hev⟩
      · rw [hev toolName]
        have hrest := ih (callIdx + 1) st1 (hused ▸ h)
        rw [invocationCount] at hrest
        rw [hrest]
        simp
      · have hne : nm ≠ toolName := fun hh => hnm (hh ▸ h)
        rw [hev toolName, decide_eq_false hne]
        have hmem1 : toolName ∈ st1.toolsUsed := by
          rw [husd]
          exact List.mem_append_left _ h
        have hrest := ih (callIdx + 1) st1 hmem1
        rw [invocationCount] at hrest
        rw [hrest]
        simp

theorem runTurnLoop_inv_le_one (cfg : AgentConfig) (repEnabled : Bool)
    (avail : List String) (oracle : Nat → LLMResponse) (toolName : String) :
    ∀ (fuel callIdx : Nat) (st : TurnState),
      invocationCount
        (runTurnLoop cfg repEnabled avail oracle fuel callIdx st).2.1 toolName ≤ 1 := by
  intro fuel
  induction fuel with
  | zero => intro callIdx st; exact Nat.zero_le 1
  | succ n ih =>
    intro callIdx st
    rw [runTurnLoop]
    cases hstep : turnStep cfg repEnabled avail st (oracle callIdx) with
    | finishTurn c => exact Nat.zero_le 1
    | continueLoop st1 ev =>
      dsimp only
      rw [invocationCount, List.countP_cons]
      rcases turnStep_continue_inv cfg repEnabled avail st (oracle callIdx) st1 ev hstep with
        ⟨hused, hev⟩ | ⟨nm, hnm, husd, hev⟩
      · rw [hev toolName]
        have := ih (callIdx + 1) st1
        rw [invocationCount] at this
        simpa using this
      · by_cases hne : nm = toolName
        · subst hne
          have hmem1 : nm ∈ st1.toolsUsed := by
            rw [husd]
            exact List.mem_append_right _ (List.mem_singleton.mpr rfl)
          have hrest := runTurnLoop_inv_used cfg repEnabled avail oracle nm n
            (callIdx + 1) st1 hmem1
          rw [invocationCount] at hrest
          rw [hev nm, decide_eq_true rfl, hrest]
          simp
        · rw [hev toolName, decide_eq_false hne]
          have := ih (callIdx + 1) st1
          rw [invocationCount] at this
          simpa using this

theorem runTurnLoop_returns (cfg : AgentConfig) (repEnabled : Bool)
    (avail : List String) (oracle : Nat → LLMResponse) :
    ∀ (fuel callIdx : Nat) (st : TurnState),
      (runTurnLoop cfg repEnabled avail oracle fuel callIdx st).2.2 = fallbackSummary cfg
      ∨ ∃ i, callIdx ≤ i ∧ i < callIdx + fuel ∧
          oracle i = .assistantMsg
            ((runTurnLoop cfg repEnabled avail oracle fuel callIdx st).2.2) := by
  intro fuel
  induction fuel with
  | zero => intro callIdx st; exact Or.inl rfl
  | succ n ih =>
    intro callIdx st
    rw [runTurnLoop]
    cases hstep : turnStep cfg repEnabled avail st (oracle callIdx) with
    | finishTurn c =>
      right
      exact ⟨callIdx, le_refl _, by omega,
        turnStep_finish_inv cfg repEnabled avail st (oracle callIdx) c hstep⟩
    | continueLoop st1 ev =>
      dsimp only
      rcases ih (callIdx + 1) st1 with hl | ⟨i, h1, h2, h3⟩
      · exact Or.inl hl
      · exact Or.inr ⟨i, by omega, by omega, h3⟩

theorem runTurnLoop_ceiling (cfg : AgentConfig) (repEnabled : Bool)
    (avail : List String) (oracle : Nat → LLMResponse) :
    ∀ (fuel callIdx : Nat) (st : TurnState),
      (∀ i, callIdx ≤ i → i < callIdx + fuel → (oracle i).isAssistant = false) →
      (runTurnLoop cfg repEnabled avail oracle fuel callIdx st).2.2
        = fallbackSummary cfg := by
  intro fuel
  induction fuel with
  | zero => intro callIdx st h; rfl
  | succ n ih =>
    intro callIdx st h
    cases hresp : oracle callIdx with
    | assistantMsg c =>
      have hfalse := h callIdx (le_refl _) (by omega)
      rw [hresp] at hfalse
      exact absurd hfalse (by simp [LLMResponse.isAssistant])
    | toolCall name args =>
      obtain ⟨st1, ev, hstep⟩ := turnStep_toolCall_continue cfg repEnabled avail st name args
      rw [runTurnLoop, hresp, hstep]
      dsimp only
      exact ih (callIdx + 1) st1 (fun i hi1 hi2 => h i (by omega) (by omega))

/-- C5: within one agent timestep, each named action is invoked at most
once: a request for a tool already in `tools_used` is rejected with the
"already used this timestep" notice — appended as text, with no execution
and no state change — and the loop continues; in particular, asking to
inspect the same object twice leaves exactly one private observation. -/
theorem C5_each_action_at_most_once_per_timestep :
    (∀ (cfg : AgentConfig) (repEnabled : Bool) (avail : List String)
        (sysPrompt userPrompt : String) (oracle : Nat → LLMResponse)
        (env : EnvState) (toolName : String),
        invocationCount
          (runTimestep cfg repEnabled avail sysPrompt userPrompt oracle env).2.1
          toolName ≤ 1)
    ∧ (∀ (cfg : AgentConfig) (repEnabled : Bool) (avail : List String)
        (st : TurnState) (toolName : String) (args : ToolArgs),
        toolName ∈ st.toolsUsed →
        turnStep cfg repEnabled avail st (.toolCall toolName args)
          = .continueLoop
              { st with messages :=
                  st.messages ++ [("assistant", alreadyUsedMsg toolName)] }
              (.rejectedDup toolName))
    ∧ ((dictGet (runTimestep alice false baseAvail "sys" "user" doubleInspectOracle
          sampleEnv).1.env.agentStates "alice").map
        (fun st => st.privateObservations.length) = some 1) := by
  refine ⟨?_, ?_, ?_⟩
  · intro cfg repEnabled avail sysPrompt userPrompt oracle env toolName
    exact runTurnLoop_inv_le_one cfg repEnabled avail oracle toolName maxIterations 0 _
  · intro cfg repEnabled avail st toolName args hmem
    rw [turnStep]
    dsimp only
    rw [if_pos hmem]
  · decide

/-- Witness for C5: in a state where `inspect_object` was already used, a
second `inspect_object` request is rejected with the notice and without
executing. -/
theorem C5_witness :
    turnStep alice false baseAvail sampleTurnState
        (.toolCall "inspect_object" (.inspectArgs "gem"))
      = .continueLoop
          { sampleTurnState with messages :=
              sampleTurnState.messages ++ [("assistant", alreadyUsedMsg "inspect_object")] }
          (.rejectedDup "inspect_object") :=
  C5_each_action_at_most_once_per_timestep.2.1 alice false baseAvail sampleTurnState
    "inspect_object" (.inspectArgs "gem") (by decide)

/-- C6: the decision loop always ends within the 10-iteration ceiling with
a summary (a final oracle statement or, when no final statement arrives,
the fixed fallback text), and an exception raised while executing a
dispatched action is caught and fed back into the conversation as
descriptive text while the loop continues. -/
theorem C6_loop_bounded_and_fault_tolerant :
    (∀ (cfg : AgentConfig) (repEnabled : Bool) (avail : List String)
        (sysPrompt userPrompt : String) (oracle : Nat → LLMResponse) (env : EnvState),
        (runTimestep cfg repEnabled avail sysPrompt userPrompt oracle env).2.2
            = fallbackSummary cfg
        ∨ ∃ i, i < maxIterations ∧
            oracle i = .assistantMsg
              ((runTimestep cfg repEnabled avail sysPrompt userPrompt oracle env).2.2))
    ∧ (∀ (cfg : AgentConfig) (repEnabled : Bool) (avail : List String)
        (sysPrompt userPrompt : String) (oracle : Nat → LLMResponse) (env : EnvState),
        (∀ i, i < maxIterations → (oracle i).isAssistant = false) →
        (runTimestep cfg repEnabled avail sysPrompt userPrompt oracle env).2.2
          = fallbackSummary cfg)
    ∧ (∀ (cfg : AgentConfig) (repEnabled : Bool) (avail : List String)
        (st : TurnState) (name : String) (args : ToolArgs) (e : String),
        name ∉ st.toolsUsed →
        execTool avail st.env cfg.agentId name args = .error e →
        turnStep cfg repEnabled avail st (.toolCall name args)
          = .continueLoop
              { toolsUsed := st.toolsUsed ++ [name],
                messages := st.messages
                  ++ [("assistant", s!"Called {name} with args " ++ args.render),
                      ("user", "Tool result: " ++ s!"Error executing {name}: {e}")],
                env := st.env }
              (.erroredTool name e)) := by
  refine ⟨?_, ?_, ?_⟩
  · intro cfg repEnabled avail sysPrompt userPrompt oracle env
    rcases runTurnLoop_returns cfg repEnabled avail oracle maxIterations 0
        { toolsUsed := [],
          messages := [("system", sysPrompt), ("user", userPrompt)],
          env := env } with hl | ⟨i, h1, h2, h3⟩
    · exact Or.inl hl
    · exact Or.inr ⟨i, by omega, h3⟩
  · intro cfg repEnabled avail sysPrompt userPrompt oracle env h
    exact runTurnLoop_ceiling cfg repEnabled avail oracle maxIterations 0 _
      (fun i hi1 hi2 => h i (by omega))
  · intro cfg repEnabled avail st name args e hmem hexec
    rw [turnStep]
    dsimp only
    rw [if_neg hmem, hexec]

/-- Witness for C6: an oracle that never produces a final statement drives
the loop to the ceiling, and the fixed fallback summary is returned. -/
theorem C6_witness :
    (runTimestep alice false baseAvail "sys" "user" toolOnlyOracle sampleEnv).2.2
      = fallbackSummary alice :=
  C6_loop_bounded_and_fault_tolerant.2.1 alice false baseAvail "sys" "user"
    toolOnlyOracle sampleEnv (by decide)

theorem runRound_escaped (tf : String → EnvState → EnvState × String) (s : Nat)
    (ps : List AgentConfig) (env : EnvState) (h : env.room.escaped = true) :
    runRound tf s ps env = (env, []) := by
  cases ps with
  | nil => rfl
  | cons cfg rest => rw [runRound, if_pos h]

theorem runRound_nil_env (tf : String → EnvState → EnvState × String) (s : Nat) :
    ∀ (ps : List AgentConfig) (env : EnvState),
      (runRound tf s ps env).2 = [] → (runRound tf s ps env).1 = env := by
  intro ps env h
  cases ps with
  | nil => rfl
  | cons cfg rest =>
    rw [runRound] at h ⊢
    by_cases hesc : env.room.escaped = true
    · rw [if_pos hesc]
    · rw [if_neg hesc] at h
      exact absurd h (by simp)

theorem runRound_steps (tf : String → EnvState → EnvState × String) (s : Nat) :
    ∀ (ps : List AgentConfig) (env : EnvState),
      ∀ tr ∈ (runRound tf s ps env).2, tr.step = s := by
  intro ps
  induction ps with
  | nil =>
    intro env tr htr
    simp [runRound] at htr
  | cons cfg rest ih =>
    intro env tr htr
    rw [runRound] at htr
    by_cases hesc : env.room.escaped = true
    · rw [if_pos hesc] at htr
      simp at htr
    · rw [if_neg hesc] at htr
      dsimp only at htr
      rcases List.mem_cons.mp htr with heq | hmem
      · rw [heq]
      · exact ih _ tr hmem

theorem runRound_prefix (tf : String → EnvState → EnvState × String) (s : Nat) :
    ∀ (ps : List AgentConfig) (env : EnvState),
      ∃ k, ((runRound tf s ps env).2).map (·.agentId) = (ps.map (·.agentId)).take k := by
  intro ps
  induction ps with
  | nil => intro env; exact ⟨0, rfl⟩
  | cons cfg rest ih =>
    intro env
    rw [runRound]
    by_cases hesc : env.room.escaped = true
    · rw [if_pos hesc]
      exact ⟨0, rfl⟩
    · rw [if_neg hesc]
      dsimp only
      obtain ⟨k, hk⟩ := ih (tf cfg.agentId env).1
      refine ⟨k + 1, ?_⟩
      rw [List.map_cons, List.map_cons, List.take_succ_cons, hk]

theorem runRound_last_env (tf : String → EnvState → EnvState × String) (s : Nat) :
    ∀ (ps : List AgentConfig) (env : EnvState) (tr : TurnRec),
      ((runRound tf s ps env).2).getLast? = some tr →
      tr.envAfter = (runRound tf s ps env).1 := by
  intro ps
  induction ps with
  | nil =>
    intro env tr h
    simp [runRound] at h
  | cons cfg rest ih =>
    intro env tr h
    rw [runRound] at h ⊢
    by_cases hesc : env.room.escaped = true
    · rw [if_pos hesc] at h
      simp at h
    · rw [if_neg hesc] at h ⊢
      dsimp only at h ⊢
      cases hr : (runRound tf s rest (tf cfg.agentId env).1).2 with
      | nil =>
        rw [hr] at h
        simp only [List.getLast?_singleton, Option.some_inj] at h
        rw [← h]
        exact (runRound_nil_env tf s rest (tf cfg.agentId env).1 hr).symm
      | cons tr0 rest0 =>
        rw [hr, List.getLast?_cons_cons] at h
        exact ih (tf cfg.agentId env).1 tr (by rw [hr]; exact h)

theorem runRound_abl (tf : String → EnvState → EnvState × String) (s : Nat) :
    ∀ (ps : List AgentConfig) (env : EnvState),
      allButLastNotEscaped (runRound tf s ps env).2 := by
  intro ps
  induction ps with
  | nil => intro env; trivial
  | cons cfg rest ih =>
    intro env
    rw [runRound]
    by_cases hesc : env.room.escaped = true
    · rw [if_pos hesc]
      trivial
    · rw [if_neg hesc]
      dsimp only
      cases hr : (runRound tf s rest (tf cfg.agentId env).1).2 with
      | nil => trivial
      | cons tr0 rest0 =>
        rw [allButLastNotEscaped]
        constructor
        · cases hb : (tf cfg.agentId env).1.room.escaped with
          | false => rfl
          | true =>
            have := runRound_escaped tf s rest (tf cfg.agentId env).1 hb
            rw [this] at hr
            simp at hr
        · have := ih (tf cfg.agentId env).1
          rw [hr] at this
          exact this

theorem runRound_full (tf : String → EnvState → EnvState × String) (s : Nat) :
    ∀ (ps : List AgentConfig) (env : EnvState),
      (∀ tr ∈ (runRound tf s ps env).2, tr.envAfter.room.escaped = false) →
      (runRound tf s ps env).2 ≠ [] →
      ((runRound tf s ps env).2).map (·.agentId) = ps.map (·.agentId) := by
  intro ps
  induction ps with
  | nil => intro env h hne; exact absurd rfl hne
  | cons cfg rest ih =>
    intro env h hne
    rw [runRound] at h hne ⊢
    by_cases hesc : env.room.escaped = true
    · rw [if_pos hesc] at hne
      exact absurd rfl hne
    · rw [if_neg hesc] at h hne ⊢
      dsimp only at h hne ⊢
      rw [List.map_cons, List.map_cons]
      congr 1
      have ht1 : (tf cfg.agentId env).1.room.escaped = false :=
        h ⟨s, cfg.agentId, (tf cfg.agentId env).1, (tf cfg.agentId env).2⟩
          (List.mem_cons_self _ _)
      cases rest with
      | nil => rfl
      | cons c2 r2 =>
        apply ih
        · intro tr htr
          exact h tr (List.mem_cons_of_mem _ htr)
        · rw [runRound, if_neg (by rw [ht1]; simp)]
          dsimp only
          exact List.cons_ne_nil _ _

theorem abl_append : ∀ (a b : List TurnRec),
    allButLastNotEscaped a → allButLastNotEscaped b →
    (∀ tr, a.getLast? = some tr → b ≠ [] → tr.envAfter.room.escaped = false) →
    allButLastNotEscaped (a ++ b) := by
  intro a
  induction a with
  | nil => intro b ha hb hlast; simpa using hb
  | cons x a' iha =>
    intro b ha hb hlast
    cases a' with
    | nil =>
      cases b with
      | nil => simpa using ha
      | cons y b' =>
        show allButLastNotEscaped (x :: y :: b')
        rw [allButLastNotEscaped]
        exact ⟨hlast x rfl (List.cons_ne_nil _ _), hb⟩
    | cons z a'' =>
      show allButLastNotEscaped (x :: ((z :: a'') ++ b))
      rw [show (z :: a'') ++ b = z :: (a'' ++ b) from rfl, allButLastNotEscaped]
      rw [allButLastNotEscaped] at ha
      refine ⟨ha.1, ?_⟩
      show allButLastNotEscaped ((z :: a'') ++ b)
      exact iha b ha.2 hb
        (fun tr htr hb' =>
          hlast tr (by rw [List.getLast?_cons_cons]; exact htr) hb')

theorem runSteps_abl (personas : List AgentConfig)
    (tf : String → EnvState → EnvState × String) :
    ∀ (fuel step : Nat) (env : EnvState) (m : EpisodeMetrics),
      allButLastNotEscaped (runSteps personas tf fuel step env m).2.2 := by
  intro fuel
  induction fuel with
  | zero => intro step env m; trivial
  | succ n ih =>
    intro step env m
    rw [runSteps]
    dsimp only
    split
    · trivial
    · split
      next hesc2 => exact runRound_abl tf step personas _
      next hesc2 =>
        refine abl_append _ _ (runRound_abl tf step personas _) (ih (step + 1) _ _) ?_
        intro tr htr hb
        rw [runRound_last_env tf step personas _ tr htr]
        simp only [Bool.not_eq_true] at hesc2
        exact hesc2

theorem runSteps_step_ge (personas : List AgentConfig)
    (tf : String → EnvState → EnvState × String) :
    ∀ (fuel step : Nat) (env : EnvState) (m : EpisodeMetrics) (tr : TurnRec),
      tr ∈ (runSteps personas tf fuel step env m).2.2 → step ≤ tr.step := by
  intro fuel
  induction fuel with
  | zero => intro step env m tr htr; simp [runSteps] at htr
  | succ n ih =>
    intro step env m tr htr
    rw [runSteps] at htr
    dsimp only at htr
    split at htr
    · simp at htr
    · split at htr
      · have := runRound_steps tf step personas _ tr htr
        omega
      · rcases List.mem_append.mp htr with h1 | h1
        · have := runRound_steps tf step personas _ tr h1
          omega
        · have := ih (step + 1) _ _ tr h1
          omega

theorem filter_step_self {l : List TurnRec} {s : Nat}
    (h : ∀ tr ∈ l, tr.step = s) : l.filter (fun tr => tr.step = s) = l :=
  List.filter_eq_self.mpr (fun a ha => by simp [h a ha])

theorem filter_step_nil {l : List TurnRec} {s : Nat}
    (h : ∀ tr ∈ l, tr.step ≠ s) : l.filter (fun tr => tr.step = s) = [] :=
  List.filter_eq_nil_iff.mpr (fun a ha => by simp [h a ha])

theorem runSteps_round_prefix (personas : List AgentConfig)
    (tf : String → EnvState → EnvState × String) :
    ∀ (fuel step : Nat) (env : EnvState) (m : EpisodeMetrics) (s : Nat),
      ∃ k, (((runSteps personas tf fuel step env m).2.2).filter
          (fun tr => tr.step = s)).map (·.agentId)
        = (personas.map (·.agentId)).take k := by
  intro fuel
  induction fuel with
  | zero => intro step env m s; exact ⟨0, rfl⟩
  | succ n ih =>
    intro step env m s
    rw [runSteps]
    dsimp only
    split
    · exact ⟨0, rfl⟩
    · split
      · dsimp only
        by_cases hs : s = step
        · subst hs
          rw [filter_step_self (runRound_steps tf s personas _)]
          exact runRound_prefix tf s personas _
        · rw [filter_step_nil (fun tr htr =>
            by rw [runRound_steps tf step personas _ tr htr]; omega)]
          exact ⟨0, rfl⟩
      · dsimp only
        rw [List.filter_append]
        by_cases hs : s = step
        · subst hs
          rw [filter_step_self (runRound_steps tf s personas _),
            filter_step_nil (fun tr htr => by
              have := runSteps_step_ge personas tf n (s + 1) _ _ tr htr
              omega),
            List.append_nil]
          exact runRound_prefix tf s personas _
        · rw [filter_step_nil (fun tr htr =>
            by rw [runRound_steps tf step personas _ tr htr]; omega),
            List.nil_append]
          exact ih (step + 1) _ _ s

theorem runSteps_full_round (personas : List AgentConfig)
    (tf : String → EnvState → EnvState × String) :
    ∀ (fuel step : Nat) (env : EnvState) (m : EpisodeMetrics) (s : Nat),
      (((runSteps personas tf fuel step env m).2.2).filter
          (fun tr => tr.step = s)) ≠ [] →
      (∀ tr ∈ ((runSteps personas tf fuel step env m).2.2).filter
          (fun tr => tr.step = s), tr.envAfter.room.escaped = false) →
      ((((runSteps personas tf fuel step env m).2.2).filter
          (fun tr => tr.step = s)).map (·.agentId))
        = personas.map (·.agentId) := by
  intro fuel
  induction fuel with
  | zero =>
    intro step env m s hne hall
    exact absurd rfl hne
  | succ n ih =>
    intro step env m s hne hall
    rw [runSteps] at hne hall ⊢
    try dsimp only at hne hall ⊢
    by_cases hc1 : ({ env with publicState :=
        { env.publicState with timestep := step } } : EnvState).room.escaped = true
    · rw [if_pos hc1] at hne
      exact absurd rfl hne
    · rw [if_neg hc1] at hne hall ⊢
      try dsimp only at hne hall ⊢
      by_cases hc2 : (runRound tf step personas
          { env with publicState :=
            { env.publicState with timestep := step } }).1.room.escaped = true
      · rw [if_pos hc2] at hne hall ⊢
        try dsimp only at hne hall ⊢
        by_cases hs : s = step
        · subst hs
          rw [filter_step_self (runRound_steps tf s personas _)] at hne hall ⊢
          exact runRound_full tf s personas _ hall hne
        · rw [filter_step_nil (fun tr htr =>
            by rw [runRound_steps tf step personas _ tr htr]; omega)] at hne
          exact absurd rfl hne
      · rw [if_neg hc2] at hne hall ⊢
        try dsimp only at hne hall ⊢
        rw [List.filter_append] at hne hall ⊢
        by_cases hs : s = step
        · subst hs
          rw [filter_step_self (runRound_steps tf s personas _),
            filter_step_nil (fun tr htr => by
              have := runSteps_step_ge personas tf n (s + 1) _ _ tr htr
              omega),
            List.append_nil] at hne hall ⊢
          exact runRound_full tf s personas _ hall hne
        · rw [filter_step_nil (fun tr htr =>
            by rw [runRound_steps tf step personas _ tr htr]; omega),
            List.nil_append] at hne hall ⊢
          exact ih (step + 1) _ _ s hne hall

/-- C7: within every timestep the Episode Scheduler gives turns in the
fixed persona-configuration order — each round's turn sequence is a prefix
of that order, duplicate-free when persona ids are, and the full order
exactly when the room never showed escaped during the round — and once a
turn's post-state shows the room escaped, no further turn is given to
anyone in that round or later (the episode stops). -/
theorem C7_fixed_order_one_turn_early_stop
    (baseRoom : Room) (personas : List AgentConfig)
    (settings : ExperimentSettings)
    (turnFn : String → EnvState → EnvState × String) :
    (∀ s : Nat, ∃ k,
      ((((runEpisode baseRoom personas settings turnFn).2.2).filter
          (fun tr => tr.step = s)).map (·.agentId))
        = (personas.map (·.agentId)).take k)
    ∧ ((personas.map (·.agentId)).Nodup → ∀ s : Nat,
        ((((runEpisode baseRoom personas settings turnFn).2.2).filter
            (fun tr => tr.step = s)).map (·.agentId)).Nodup)
    ∧ (∀ s : Nat,
        (((runEpisode baseRoom personas settings turnFn).2.2).filter
            (fun tr => tr.step = s)) ≠ [] →
        (∀ tr ∈ ((runEpisode baseRoom personas settings turnFn).2.2).filter
            (fun tr => tr.step = s), tr.envAfter.room.escaped = false) →
        ((((runEpisode baseRoom personas settings turnFn).2.2).filter
            (fun tr => tr.step = s)).map (·.agentId))
          = personas.map (·.agentId))
    ∧ allButLastNotEscaped ((runEpisode baseRoom personas settings turnFn).2.2) := by
  have htrace : (runEpisode baseRoom personas settings turnFn).2.2
      = (runSteps personas turnFn settings.maxSteps 0
          (initEnvState baseRoom personas settings) EpisodeMetrics.init).2.2 := rfl
  refine ⟨?_, ?_, ?_, ?_⟩
  · intro s
    rw [htrace]
    exact runSteps_round_prefix personas turnFn settings.maxSteps 0 _ _ s
  · intro hnd s
    rw [htrace]
    obtain ⟨k, hk⟩ := runSteps_round_prefix personas turnFn settings.maxSteps 0
      (initEnvState baseRoom personas settings) EpisodeMetrics.init s
    rw [hk]
    exact hnd.sublist (List.take_sublist k _)
  · intro s
    rw [htrace]
    exact runSteps_full_round personas turnFn settings.maxSteps 0 _ _ s
  · rw [htrace]
    exact runSteps_abl personas turnFn settings.maxSteps 0 _ _

/-- Witness for C7: a one-step episode with two personas and a turn
function that never escapes gives exactly one turn to alice then bob, in
configuration order. -/
theorem C7_witness :
    ((((runEpisode sampleRoom samplePersonas plainSettings idleTurn).2.2).filter
        (fun tr => tr.step = 0)).map (·.agentId)) = ["alice", "bob"] := by
  have h := (C7_fixed_order_one_turn_early_stop sampleRoom samplePersonas
    plainSettings idleTurn).2.2.1 0 (by decide) (by decide)
  exact h.trans (by decide)

end Escaper
